import Mathlib

/-!
# fatol: a circuit breaker

Shallow embedding of `circuit.go` (package `fatol`) and theorems about it.

Modelling conventions.

* The counters `numRequests`, `numFailedRequests`, `numSuccessfulRequests` and the
  budget `maxRequests` are Go `uint32`: natural numbers, and `x++` is
  `(x + 1) % 2^32` (`incr32`).
* `State` is a Go `int`: an integer, with the three declared constants.
* `time.Time` is an instant, counted in nanoseconds from the zero `time.Time{}`;
  every `time.Now()` the code evaluates is a parameter of the operation (`t1`, `t2`,
  `now`), so the theorems hold for every clock.
* The `mutex` field is a non-nil pointer to a `sync.Mutex` that is unlocked when an
  operation starts (`NewCircuitBreaker` allocates it, every operation unlocks it
  before it returns). On sequential state a `Lock`/`Unlock` pair is the identity, so
  the field is not represented in the state; the `trace` functions give the calls of
  `Lock` and `Unlock` among the field accesses of each method.
* A work function `req func() (interface{}, error)` is a transformer of an external
  world `W` that either returns `(result, err)` or panics. It does not
  reach into the breaker it is run by. A work function that `Do` does not call leaves
  the world as it was, whatever the function is.
* A panic carries the value `recover()` reports for it in the deferred closure of `Do`,
  which may be nil (`none`): a work function that calls `panic(nil)` makes `recover()`
  return nil under the semantics of Go 1.20 and earlier (and under
  `GODEBUG=panicnil=1`); since Go 1.21 the default is a non-nil
  `*runtime.PanicNilError`.
-/

namespace Fatol

/-! ## Machine integers and time -/

/-- Number of values of a Go `uint32`. -/
def uint32Size : Nat := 4294967296

/-- The Go statement `x++` on a `uint32`. -/
def incr32 (x : Nat) : Nat := (x + 1) % uint32Size

/-- Go `time.Duration`: a count of nanoseconds. -/
abbrev Duration := Int

/-- Go `time.Minute`. -/
def Minute : Duration := 60 * 1000000000

/-- Go `time.Time`, as the instant it denotes: nanoseconds since the zero time. -/
structure Time where
  nanos : Int
deriving DecidableEq, Repr

/-- The zero value `time.Time{}`. -/
def Time.zero : Time := ⟨0⟩

/-- Go `t.IsZero()`. -/
def Time.IsZero (t : Time) : Bool := decide (t.nanos = 0)

/-- Go `t.Before(u)`. -/
def Time.Before (t u : Time) : Bool := decide (t.nanos < u.nanos)

/-- Go `t.After(u)`. -/
def Time.After (t u : Time) : Bool := decide (u.nanos < t.nanos)

/-- Go `t.Add(d)`; it returns a new value and leaves `t` alone. -/
def Time.Add (t : Time) (d : Duration) : Time := ⟨t.nanos + d⟩

/-- Go `t.UTC()`: the same instant, with the location set to UTC. -/
def Time.UTC (t : Time) : Time := t

/-! ## Errors -/

/-- The struct `openStateError`. -/
structure openStateError where
  requests : Nat
deriving DecidableEq, Repr

/-- The struct `requestsLimitError`. -/
structure requestsLimitError where
  requests : Nat
  maxRequests : Nat
deriving DecidableEq, Repr

/-- Values of the Go interface `error` that the package meets. `none : Option (Error E)`
is the nil error. `E` is the type of the error values a work function may produce
beyond the ones built here. -/
inductive Error (E : Type) where
  /-- A `*openStateError`. -/
  | openState (e : openStateError)
  /-- A `*requestsLimitError`. -/
  | requestsLimit (e : requestsLimitError)
  /-- The value of `errors.New(message)` (github.com/pkg/errors). -/
  | new (message : String)
  /-- The value of `errors.Wrap(cause, message)` for a non-nil `cause`. -/
  | wrap (cause : Error E) (message : String)
  /-- Any other error value. -/
  | other (e : E)
deriving DecidableEq, Repr

/-- The package variable `errCompleteProcess`. -/
def errCompleteProcess {E : Type} : Error E := Error.new "unable to complete process"

/-- The library call `errors.Wrap(err, message)` on a non-nil `err`, as `Do` uses it
(the recorded stack trace is not represented). -/
def errors.Wrap {E : Type} (err : Error E) (message : String) : Error E :=
  Error.wrap err message

/-- The library call `errors.Cause(err)`: the innermost wrapped error. -/
def errors.Cause {E : Type} : Error E → Error E
  | Error.wrap cause _ => errors.Cause cause
  | e => e

/-! ## States and the breaker -/

/-- Go `type State int`. -/
abbrev State := Int

/-- Constant `StateClosed` (iota = 0). -/
def StateClosed : State := 0

/-- Constant `StateOpen` (iota = 1). -/
def StateOpen : State := 1

/-- Constant `StateHalfOpen` (iota = 2). -/
def StateHalfOpen : State := 2

/-- The verb `%d` of `fmt.Sprintf` on an integer: decimal digits, `-` before a negative
one. -/
def formatDecimal (n : Int) : String := toString n

/-- Method `State.String`. -/
def State.String (s : State) : String :=
  if s = StateClosed then "state is closed"
  else if s = StateOpen then "state is open"
  else if s = StateHalfOpen then "state is half-open"
  else "unknown state: " ++ formatDecimal s

/-- The struct `CircuitBreaker` (the `mutex` pointer apart, see the header). -/
structure CircuitBreaker where
  Timeout : Time
  timeout : Time
  openInterval : Duration
  expiry : Time
  lastStateChanged : Time
  maxRequests : Nat
  numFailedRequests : Nat
  numSuccessfulRequests : Nat
  numRequests : Nat
  state : State
deriving DecidableEq, Repr

/-- Function `NewCircuitBreaker`: the fields it does not name are zero values. -/
def NewCircuitBreaker : CircuitBreaker :=
  { Timeout := Time.zero
    timeout := Time.zero
    openInterval := 1 * Minute
    expiry := Time.zero
    lastStateChanged := Time.zero
    maxRequests := 5
    numFailedRequests := 0
    numSuccessfulRequests := 0
    numRequests := 0
    state := StateClosed }

/-- Method `clear`. -/
def clear (cb : CircuitBreaker) : CircuitBreaker :=
  { cb with numFailedRequests := 0, numSuccessfulRequests := 0, numRequests := 0 }

/-- Method `newObject`. In the `StateOpen` case the value of `cb.expiry.Add(...)` is
dropped, so the breaker is left as `clear` made it. -/
def newObject (cb : CircuitBreaker) : CircuitBreaker :=
  let cb1 := clear cb
  if cb1.state = StateOpen then
    let _dropped := cb1.expiry.Add cb1.openInterval
    cb1
  else if cb1.state = StateHalfOpen then
    { cb1 with expiry := Time.zero }
  else cb1

/-- Method `setState`. `t1` and `t2` are the two readings of `time.Now()` taken in the
`StateOpen` and `StateClosed` cases. -/
def setState (cb : CircuitBreaker) (state : State) (t1 t2 : Time) : CircuitBreaker :=
  if cb.state = state then cb
  else
    let cb1 :=
      if state = StateOpen then
        { cb with timeout := t1, lastStateChanged := t2.UTC }
      else if state = StateClosed then
        { cb with timeout := t1, lastStateChanged := t2.UTC }
      else cb
    { cb1 with state := state }

/-- What `beforeRequest` returns, with the breaker it leaves behind. -/
structure BeforeResult (E : Type) where
  /-- The `uint64` result, always 0. -/
  n : Nat
  err : Option (Error E)
  cb : CircuitBreaker

/-- Method `beforeRequest`. -/
def beforeRequest (E : Type) (cb : CircuitBreaker) : BeforeResult E :=
  let cb1 := { cb with numRequests := incr32 cb.numRequests }
  if cb1.state = StateOpen then
    ⟨0, some (Error.openState ⟨cb1.numRequests⟩), cb1⟩
  else if cb1.state = StateHalfOpen then
    if cb1.numRequests > cb1.maxRequests then
      ⟨0, some (Error.requestsLimit ⟨cb1.numRequests, cb1.maxRequests⟩), cb1⟩
    else ⟨0, none, cb1⟩
  else ⟨0, none, cb1⟩

/-- Method `onFailure`; `t1`, `t2` are passed on to `setState`. -/
def onFailure (cb : CircuitBreaker) (t1 t2 : Time) : CircuitBreaker :=
  let cb1 := { cb with numRequests := incr32 cb.numRequests }
  let cb2 := { cb1 with numFailedRequests := incr32 cb1.numFailedRequests }
  if cb2.state = StateClosed then setState cb2 StateOpen t1 t2
  else if cb2.state = StateHalfOpen then setState cb2 StateOpen t1 t2
  else cb2

/-- Method `onSuccessful`. -/
def onSuccessful (cb : CircuitBreaker) : CircuitBreaker :=
  let cb1 := { cb with numRequests := incr32 cb.numRequests }
  { cb1 with numSuccessfulRequests := incr32 cb1.numSuccessfulRequests }

/-- Method `currentState`: the state it returns and the breaker it leaves. `now` is the
first reading of `time.Now()`, `t3` the one stored in `lastStateChanged`; `setState`
reads no clock for the target `StateHalfOpen`, its readings `t1`, `t2` are unused. -/
def currentState (cb : CircuitBreaker) (now t1 t2 t3 : Time) : State × CircuitBreaker :=
  let cb1 :=
    if cb.state = StateClosed then
      if (!cb.expiry.IsZero && cb.expiry.Before now) then newObject cb else cb
    else if cb.state = StateOpen then
      if cb.expiry.After now then
        let cb2 := setState cb StateHalfOpen t1 t2
        { cb2 with lastStateChanged := t3.UTC }
      else cb
    else cb
  (cb1.state, cb1)

/-- Method `recordRequest`. -/
def recordRequest {E : Type} (cb : CircuitBreaker) (err : Option (Error E))
    (t1 t2 : Time) : CircuitBreaker :=
  match err with
  | none => onSuccessful cb
  | some _ => onFailure cb t1 t2

/-! ## Work functions and `Do` -/

/-- How a call of a `func() (interface{}, error)` ends: it returns `(result, err)`
(`none` is nil), or it panics. The value `v` of a panic is what `recover()` returns for
it: `some v` for a non-nil value, `none` for nil (the call `panic(nil)` under the
semantics of Go 1.20 and earlier). -/
inductive Outcome (R E P : Type) where
  | returns (result : Option R) (err : Option (Error E))
  | panics (v : Option P)
deriving DecidableEq, Repr

/-- A work function: run in a world, it ends with an outcome and leaves a world. -/
abbrev Work (R E P W : Type) := W → Outcome R E P × W

/-- What a call of `Do` leaves: how the call ended for its caller, the breaker, and
the world (changed only by running the work function). -/
structure DoResult (R E P W : Type) where
  outcome : Outcome R E P
  cb : CircuitBreaker
  world : W

/-- The closure `Do` defers:
`err := recover(); if err != nil { cb.recordRequest(errCompleteProcess); panic(err) }`.
`recovered` is the value of `recover()`: `none` (nil) when the function is returning
normally or panicking with a nil value, `some v` when it is panicking with the non-nil
`v`. The second component is the value it panics with again, if any; a recovered panic
that is not raised again lets `Do` return the zero values `(nil, nil)`. -/
def Do.deferred (E : Type) {P : Type} (cb : CircuitBreaker) (recovered : Option P)
    (t1 t2 : Time) : CircuitBreaker × Option P :=
  match recovered with
  | some v => (recordRequest cb (some (errCompleteProcess : Error E)) t1 t2, some v)
  | none => (cb, none)

/-- Method `Do`, run on breaker `cb` in world `w`; `t1`, `t2` are the clock readings of
the `setState` that `recordRequest` may reach. -/
def Do {R E P W : Type} (cb : CircuitBreaker) (req : Work R E P W) (w : W)
    (t1 t2 : Time) : DoResult R E P W :=
  let b := beforeRequest E cb
  match b.err with
  | some (Error.openState e) =>
    ⟨Outcome.returns none
      (some (errors.Wrap (Error.openState e) "unable to process request at the open state")),
      b.cb, w⟩
  | some (Error.requestsLimit e) =>
    ⟨Outcome.returns none
      (some (errors.Wrap (Error.requestsLimit e)
        "unable to process request with reaching limit")),
      b.cb, w⟩
  | _ =>
    match req w with
    | (Outcome.returns result err, w1) =>
      let cb1 := recordRequest b.cb err t1 t2
      match Do.deferred E cb1 (none : Option P) t1 t2 with
      | (cb2, some v) => ⟨Outcome.panics (some v), cb2, w1⟩
      | (cb2, none) => ⟨Outcome.returns result err, cb2, w1⟩
    | (Outcome.panics v, w1) =>
      match Do.deferred E b.cb v t1 t2 with
      | (cb2, some v2) => ⟨Outcome.panics (some v2), cb2, w1⟩
      | (cb2, none) => ⟨Outcome.returns none none, cb2, w1⟩

/-- One call of `Do` in a sequence: the work function and the clock readings. -/
structure Call (R E P W : Type) where
  req : Work R E P W
  t1 : Time
  t2 : Time

/-- Calls of `Do` issued one after another on the same breaker: the outcomes in order,
the final breaker and the final world. A caller that recovers a panic goes on with
the next call. -/
def DoAll {R E P W : Type} (cb : CircuitBreaker) (w : W) :
    List (Call R E P W) → List (Outcome R E P) × CircuitBreaker × W
  | [] => ([], cb, w)
  | c :: cs =>
    let r := Do cb c.req w c.t1 c.t2
    let rest := DoAll r.cb r.world cs
    (r.outcome :: rest.1, rest.2.1, rest.2.2)

/-- The state is one of the three declared constants. -/
def State.known (s : State) : Prop :=
  s = StateClosed ∨ s = StateOpen ∨ s = StateHalfOpen

/-- The work function returns a nil error, in whatever world it is run. -/
def Work.succeeds {R E P W : Type} (req : Work R E P W) : Prop :=
  ∀ w, ∃ result w1, req w = (Outcome.returns result none, w1)

/-! ## Sequences of operations and predicates on breakers -/

/-- The three counters hold `uint32` values. -/
def CircuitBreaker.uint32Counters (cb : CircuitBreaker) : Prop :=
  cb.numRequests < 4294967296 ∧ cb.numFailedRequests < 4294967296
    ∧ cb.numSuccessfulRequests < 4294967296

/-- A counter is not smaller than before, or it has wrapped from the largest `uint32` to
zero. -/
def notSmallerOrWrapped (before after : Nat) : Prop :=
  before ≤ after ∨ (before = 4294967295 ∧ after = 0)

/-- Some counter of `after` is smaller than the same counter of `before`. -/
def anySmaller (before after : CircuitBreaker) : Prop :=
  after.numRequests < before.numRequests
    ∨ after.numFailedRequests < before.numFailedRequests
    ∨ after.numSuccessfulRequests < before.numSuccessfulRequests

/-- The three counters are zero. -/
def allZero (cb : CircuitBreaker) : Prop :=
  cb.numRequests = 0 ∧ cb.numFailedRequests = 0 ∧ cb.numSuccessfulRequests = 0

/-- One operation on a breaker: a call of `Do`, or a call of `currentState` with its
clock readings. -/
inductive Step (R E P W : Type) where
  | doCall (c : Call R E P W)
  | current (now t1 t2 t3 : Time)

/-- The clock reading `now` of a `currentState` step is later than the zero time. -/
def Step.clockAfterZero {R E P W : Type} : Step R E P W → Prop
  | Step.doCall _ => True
  | Step.current now _ _ _ => Time.zero.Before now = true

/-- Operations run one after another on the same breaker: the final breaker and the
final world. -/
def run {R E P W : Type} (cb : CircuitBreaker) (w : W) :
    List (Step R E P W) → CircuitBreaker × W
  | [] => (cb, w)
  | Step.doCall c :: ss =>
    let r := Do cb c.req w c.t1 c.t2
    run r.cb r.world ss
  | Step.current now t1 t2 t3 :: ss =>
    run (currentState cb now t1 t2 t3).2 w ss

/-- The verdict of `beforeRequest` on the next call: `true` when it returns a nil error
and `Do` goes on to call the work function. -/
def letThrough (E : Type) (cb : CircuitBreaker) : Bool :=
  (beforeRequest E cb).err.isNone

/-- The work function ends in a panic whose value is nil for `recover()`. -/
def Outcome.isNilPanic {R E P : Type} : Outcome R E P → Bool
  | Outcome.panics none => true
  | _ => false

/-- How `Do` ends for its caller when `beforeRequest` lets the call through and the
work function ends with the given outcome: as the work function does, except that a
panic with a nil value is swallowed and `Do` returns `(nil, nil)`. -/
def Do.passedOn {R E P : Type} : Outcome R E P → Outcome R E P
  | Outcome.panics none => Outcome.returns none none
  | o => o

/-- Along a sequence of `Do` calls: the number of calls `beforeRequest` lets through
whose work function returns or panics with a non-nil value, and the number of calls
`beforeRequest` turns down. -/
def tally {R E P W : Type} (cb : CircuitBreaker) (w : W) :
    List (Call R E P W) → Nat × Nat
  | [] => (0, 0)
  | c :: cs =>
    let r := Do cb c.req w c.t1 c.t2
    let t := tally r.cb r.world cs
    if letThrough E cb then
      (if (c.req w).1.isNilPanic then t else (t.1 + 1, t.2))
    else (t.1, t.2 + 1)

/-- Along a sequence of `Do` calls: the number of calls `beforeRequest` lets through
whose work function panics with a nil value. -/
def nilPanics {R E P W : Type} (cb : CircuitBreaker) (w : W) :
    List (Call R E P W) → Nat
  | [] => 0
  | c :: cs =>
    let r := Do cb c.req w c.t1 c.t2
    (if letThrough E cb && (c.req w).1.isNilPanic then 1 else 0)
      + nilPanics r.cb r.world cs

/-- The window has never been set and the breaker is Closed or Open. -/
def untouchedWindow (cb : CircuitBreaker) : Prop :=
  cb.expiry = Time.zero ∧ (cb.state = StateClosed ∨ cb.state = StateOpen)

/-! ## The mutex: which actions an operation performs, in order

The functions above give the state an operation leaves. The `trace` functions below
give, for the same source text, the sequence of mutex operations, field reads and
writes, and the call of the work function, with the same branches. -/

/-- The fields of `CircuitBreaker` that the methods read or write. -/
inductive Field where
  | state
  | numRequests
  | numFailedRequests
  | numSuccessfulRequests
  | maxRequests
  | expiry
  | lastStateChanged
  | timeout
  | openInterval
deriving DecidableEq, Repr

/-- One action of a method on the breaker it is called on. -/
inductive Action where
  /-- The call `cb.mutex.Lock()`. -/
  | lock
  /-- The call `cb.mutex.Unlock()` (deferred: it runs when the method returns). -/
  | unlock
  | read (f : Field)
  | write (f : Field)
  /-- The call `req()` of the work function. -/
  | work
deriving DecidableEq, Repr

/-- The lock discipline of a sequence of actions, started with the mutex held or not
by the goroutine that runs it: a field is read or written only while the mutex is
held, `Lock` is called only when it is not held (a `sync.Mutex` is not reentrant),
`Unlock` only when it is, the work function runs only while it is not held, and at
the end the mutex is not held. -/
def lockDiscipline : Bool → List Action → Bool
  | held, [] => !held
  | held, Action.lock :: rest => !held && lockDiscipline true rest
  | held, Action.unlock :: rest => held && lockDiscipline false rest
  | held, Action.read _ :: rest => held && lockDiscipline held rest
  | held, Action.write _ :: rest => held && lockDiscipline held rest
  | held, Action.work :: rest => !held && lockDiscipline held rest

/-- As `lockDiscipline`, for a helper that runs under its caller's lock: started with
the mutex held, every action passes and the mutex is still held at the end. -/
def underCallersLock : List Action → Bool
  | [] => true
  | Action.read _ :: rest => underCallersLock rest
  | Action.write _ :: rest => underCallersLock rest
  | _ :: _ => false

/-- Actions of `clear`. -/
def clear.trace : List Action :=
  [Action.write Field.numFailedRequests, Action.write Field.numSuccessfulRequests,
    Action.write Field.numRequests]

/-- Actions of `newObject`. -/
def newObject.trace (cb : CircuitBreaker) : List Action :=
  clear.trace ++ [Action.read Field.state] ++
    (if cb.state = StateOpen then [Action.read Field.expiry, Action.read Field.openInterval]
     else if cb.state = StateHalfOpen then [Action.write Field.expiry]
     else [])

/-- Actions of `setState`. -/
def setState.trace (cb : CircuitBreaker) (state : State) : List Action :=
  [Action.read Field.state] ++
    (if cb.state = state then []
     else
      (if state = StateOpen then
        [Action.write Field.timeout, Action.write Field.lastStateChanged]
       else if state = StateClosed then
        [Action.write Field.timeout, Action.write Field.lastStateChanged]
       else []) ++ [Action.write Field.state])

/-- Actions of `beforeRequest`: `Lock`, the deferred `Unlock` last. -/
def beforeRequest.trace (cb : CircuitBreaker) : List Action :=
  [Action.lock, Action.read Field.numRequests, Action.write Field.numRequests,
    Action.read Field.state] ++
    (if cb.state = StateOpen then [Action.read Field.numRequests]
     else if cb.state = StateHalfOpen then
      [Action.read Field.numRequests, Action.read Field.maxRequests] ++
        (if incr32 cb.numRequests > cb.maxRequests then
          [Action.read Field.numRequests, Action.read Field.maxRequests]
         else [])
     else []) ++
    [Action.unlock]

/-- Actions of `onFailure`. -/
def onFailure.trace (cb : CircuitBreaker) : List Action :=
  [Action.read Field.numRequests, Action.write Field.numRequests,
    Action.read Field.numFailedRequests, Action.write Field.numFailedRequests,
    Action.read Field.state] ++
    (if cb.state = StateClosed then setState.trace cb StateOpen
     else if cb.state = StateHalfOpen then setState.trace cb StateOpen
     else [])

/-- Actions of `onSuccessful`. -/
def onSuccessful.trace : List Action :=
  [Action.read Field.numRequests, Action.write Field.numRequests,
    Action.read Field.numSuccessfulRequests, Action.write Field.numSuccessfulRequests]

/-- Actions of `currentState`: it calls neither `Lock` nor `Unlock`. -/
def currentState.trace (cb : CircuitBreaker) (now : Time) : List Action :=
  [Action.read Field.state] ++
    (if cb.state = StateClosed then
      [Action.read Field.expiry] ++
        (if cb.expiry.IsZero then []
         else [Action.read Field.expiry] ++
          (if cb.expiry.Before now then newObject.trace cb else []))
     else if cb.state = StateOpen then
      [Action.read Field.expiry] ++
        (if cb.expiry.After now then
          setState.trace cb StateHalfOpen ++ [Action.write Field.lastStateChanged]
         else [])
     else []) ++
    [Action.read Field.state]

/-- Actions of `recordRequest`: `Lock`, the deferred `Unlock` last. -/
def recordRequest.trace {E : Type} (cb : CircuitBreaker) (err : Option (Error E)) :
    List Action :=
  [Action.lock] ++
    (match err with
     | none => onSuccessful.trace
     | some _ => onFailure.trace cb) ++
    [Action.unlock]

/-- Actions of `Do` on the breaker: `beforeRequest`, then, unless the call is turned
down, the work function and `recordRequest` (called by the deferred closure when the
work function panics with a non-nil value; not called at all when the value is nil). -/
def Do.trace {R E P W : Type} (cb : CircuitBreaker) (req : Work R E P W) (w : W) :
    List Action :=
  beforeRequest.trace cb ++
    (match (beforeRequest E cb).err with
     | some (Error.openState _) => []
     | some (Error.requestsLimit _) => []
     | _ =>
      [Action.work] ++
        (match req w with
         | (Outcome.returns _ err, _) => recordRequest.trace (beforeRequest E cb).cb err
         | (Outcome.panics (some _), _) =>
          recordRequest.trace (beforeRequest E cb).cb
            (some (errCompleteProcess : Error E))
         | (Outcome.panics none, _) => []))

/-! ## Sample inputs

The world of the samples is a counter of the calls made to the work function. -/

/-- A work function that counts its call and returns `(7, nil)`. -/
def okWork : Work Nat Nat Nat Nat := fun w => (Outcome.returns (some 7) none, w + 1)

/-- A work function that counts its call and returns `(7, err)` with a non-nil `err`. -/
def failWork : Work Nat Nat Nat Nat :=
  fun w => (Outcome.returns (some 7) (some (Error.other 3)), w + 1)

/-- A work function that counts its call and panics with the value 9. -/
def panicWork : Work Nat Nat Nat Nat := fun w => (Outcome.panics (some 9), w + 1)

/-- A work function that counts its call and panics with a nil value (`panic(nil)`
under the semantics of Go 1.20 and earlier). -/
def nilPanicWork : Work Nat Nat Nat Nat := fun w => (Outcome.panics none, w + 1)

/-- A call of `Do` with `nilPanicWork`. -/
def nilPanicCall : Call Nat Nat Nat Nat := ⟨nilPanicWork, ⟨50⟩, ⟨51⟩⟩

/-- A breaker in state Open whose `numRequests` is the largest `uint32`. -/
def fullOpenBreaker : CircuitBreaker :=
  { NewCircuitBreaker with state := StateOpen, numRequests := 4294967295 }

/-- A call of `Do` with `okWork`. -/
def okCall : Call Nat Nat Nat Nat := ⟨okWork, ⟨10⟩, ⟨11⟩⟩

/-- A breaker in state Open with the counters of a fresh one. -/
def openBreaker : CircuitBreaker := { NewCircuitBreaker with state := StateOpen }

/-- A breaker in state HalfOpen at the start of a window, with budget `m`. -/
def halfOpenBreaker (m : Nat) : CircuitBreaker :=
  { NewCircuitBreaker with state := StateHalfOpen, maxRequests := m }

/-- A breaker in state Open whose `expiry` (5 ns) lies before the time 10 ns, with
non-zero counters. -/
def openExpired : CircuitBreaker :=
  { NewCircuitBreaker with
    state := StateOpen, expiry := ⟨5⟩, numRequests := 3, numFailedRequests := 1,
    numSuccessfulRequests := 1 }

/-- A breaker in state Closed whose `expiry` (5 ns) is set and lies before the time
10 ns, with non-zero counters. -/
def closedExpired : CircuitBreaker :=
  { NewCircuitBreaker with
    expiry := ⟨5⟩, numRequests := 6, numFailedRequests := 0, numSuccessfulRequests := 3 }

/-- A breaker in state Closed whose `numRequests` is the largest `uint32`. -/
def fullBreaker : CircuitBreaker :=
  { NewCircuitBreaker with
    numRequests := 4294967295, numFailedRequests := 1, numSuccessfulRequests := 2 }

/-- A call of `Do` with `failWork`. -/
def failCall : Call Nat Nat Nat Nat := ⟨failWork, ⟨20⟩, ⟨21⟩⟩

/-- A call of `Do` with `panicWork`. -/
def panicCall : Call Nat Nat Nat Nat := ⟨panicWork, ⟨30⟩, ⟨31⟩⟩

/-! ## Lemmas on the operations -/

theorem iterate_incr32_zero (n : Nat) : incr32^[n] 0 = n % uint32Size := by
  induction n with
  | zero => rfl
  | succ k ih =>
    rw [Function.iterate_succ_apply', ih]
    simp [incr32, uint32Size, Nat.add_mod]

theorem beforeRequest_cb (E : Type) (cb : CircuitBreaker) :
    (beforeRequest E cb).cb = { cb with numRequests := incr32 cb.numRequests } := by
  simp only [beforeRequest]
  split_ifs <;> rfl

theorem beforeRequest_err_none_iff (E : Type) (cb : CircuitBreaker) :
    (beforeRequest E cb).err = none ↔
      cb.state ≠ StateOpen ∧
        ¬ (cb.state = StateHalfOpen ∧ incr32 cb.numRequests > cb.maxRequests) := by
  simp only [beforeRequest]
  split_ifs with h1 h2 h3 <;> simp_all

theorem beforeRequest_err_none_of_closed (E : Type) (cb : CircuitBreaker)
    (h : cb.state = StateClosed) : (beforeRequest E cb).err = none := by
  rw [beforeRequest_err_none_iff]
  simp [h, StateClosed, StateOpen, StateHalfOpen]

theorem Do_accept_returns {R E P W : Type} (cb : CircuitBreaker) (req : Work R E P W)
    (w w1 : W) (t1 t2 : Time) (result : Option R) (err : Option (Error E))
    (h : (beforeRequest E cb).err = none)
    (hreq : req w = (Outcome.returns result err, w1)) :
    Do cb req w t1 t2 =
      ⟨Outcome.returns result err, recordRequest (beforeRequest E cb).cb err t1 t2, w1⟩ := by
  simp [Do, h, hreq, Do.deferred]

theorem Do_accept_panics {R E P W : Type} (cb : CircuitBreaker) (req : Work R E P W)
    (w w1 : W) (t1 t2 : Time) (v : P)
    (h : (beforeRequest E cb).err = none)
    (hreq : req w = (Outcome.panics (some v), w1)) :
    Do cb req w t1 t2 =
      ⟨Outcome.panics (some v),
        recordRequest (beforeRequest E cb).cb (some (errCompleteProcess : Error E)) t1 t2,
        w1⟩ := by
  simp [Do, h, hreq, Do.deferred]

theorem Do_accept_nil_panic {R E P W : Type} (cb : CircuitBreaker) (req : Work R E P W)
    (w w1 : W) (t1 t2 : Time)
    (h : (beforeRequest E cb).err = none)
    (hreq : req w = (Outcome.panics none, w1)) :
    Do cb req w t1 t2 = ⟨Outcome.returns none none, (beforeRequest E cb).cb, w1⟩ := by
  simp [Do, h, hreq, Do.deferred]

theorem Do_closed_success {R E P W : Type} (cb : CircuitBreaker) (req : Work R E P W)
    (w w1 : W) (t1 t2 : Time) (result : Option R) (h : cb.state = StateClosed)
    (hreq : req w = (Outcome.returns result none, w1)) :
    Do cb req w t1 t2 =
      ⟨Outcome.returns result none,
        { cb with numRequests := incr32 (incr32 cb.numRequests),
                  numSuccessfulRequests := incr32 cb.numSuccessfulRequests }, w1⟩ := by
  rw [Do_accept_returns cb req w w1 t1 t2 result none
    (beforeRequest_err_none_of_closed E cb h) hreq, beforeRequest_cb]
  rfl

theorem DoAll_closed_success {R E P W : Type} (calls : List (Call R E P W)) :
    ∀ (cb : CircuitBreaker) (w : W), cb.state = StateClosed →
      (∀ c ∈ calls, Work.succeeds c.req) →
      (DoAll cb w calls).2.1 =
        { cb with numRequests := incr32^[2 * calls.length] cb.numRequests,
                  numSuccessfulRequests :=
                    incr32^[calls.length] cb.numSuccessfulRequests } := by
  induction calls with
  | nil => intro cb w _ _; rfl
  | cons c cs ih =>
    intro cb w h hs
    obtain ⟨result, w1, hreq⟩ := hs c (List.mem_cons_self c cs) w
    have hd := Do_closed_success cb c.req w w1 c.t1 c.t2 result h hreq
    have hcs : ∀ d ∈ cs, Work.succeeds d.req :=
      fun d hd => hs d (List.mem_cons_of_mem c hd)
    simp only [DoAll, hd]
    refine (ih _ w1 ?_ hcs).trans ?_
    · exact h
    · simp only [List.length_cons, Nat.mul_succ, Function.iterate_succ_apply]

theorem okWork_succeeds : Work.succeeds okWork :=
  fun w => ⟨some 7, w + 1, rfl⟩

theorem DoAll_closed_success_numSuccessful {R E P W : Type} (cb : CircuitBreaker) (w : W)
    (calls : List (Call R E P W)) (h : cb.state = StateClosed)
    (h0 : cb.numSuccessfulRequests = 0) (hs : ∀ c ∈ calls, Work.succeeds c.req) :
    (DoAll cb w calls).2.1.numSuccessfulRequests = calls.length % uint32Size := by
  rw [DoAll_closed_success calls cb w h hs]
  simp only [h0, iterate_incr32_zero]

theorem replicate_okCall_succeeds (n : Nat) :
    ∀ c ∈ List.replicate n okCall, Work.succeeds c.req := by
  intro c hc
  rw [List.eq_of_mem_replicate hc]
  exact okWork_succeeds

theorem incr32_notSmallerOrWrapped (x : Nat) (h : x < 4294967296) :
    notSmallerOrWrapped x (incr32 x) := by
  unfold notSmallerOrWrapped incr32 uint32Size
  omega

theorem onFailure_counters (cb : CircuitBreaker) (t1 t2 : Time) :
    (onFailure cb t1 t2).numRequests = incr32 cb.numRequests
      ∧ (onFailure cb t1 t2).numFailedRequests = incr32 cb.numFailedRequests
      ∧ (onFailure cb t1 t2).numSuccessfulRequests = cb.numSuccessfulRequests
      ∧ (onFailure cb t1 t2).expiry = cb.expiry
      ∧ (onFailure cb t1 t2).maxRequests = cb.maxRequests := by
  simp only [onFailure, setState]
  split_ifs <;> exact ⟨rfl, rfl, rfl, rfl, rfl⟩

theorem onFailure_state (cb : CircuitBreaker) (t1 t2 : Time) :
    (onFailure cb t1 t2).state =
      if cb.state = StateClosed ∨ cb.state = StateHalfOpen then StateOpen else cb.state := by
  simp only [onFailure, setState]
  split_ifs <;> simp_all [StateClosed, StateOpen, StateHalfOpen]

theorem newObject_fields (cb : CircuitBreaker) :
    (newObject cb).numRequests = 0 ∧ (newObject cb).numFailedRequests = 0
      ∧ (newObject cb).numSuccessfulRequests = 0 ∧ (newObject cb).state = cb.state
      ∧ (newObject cb).lastStateChanged = cb.lastStateChanged := by
  simp only [newObject, clear]
  split_ifs <;> exact ⟨rfl, rfl, rfl, rfl, rfl⟩

theorem currentState_cases (cb : CircuitBreaker) (now t1 t2 t3 : Time) :
    (currentState cb now t1 t2 t3).2 = cb
      ∨ (cb.state = StateClosed ∧ cb.expiry.IsZero = false ∧ cb.expiry.Before now = true
          ∧ (currentState cb now t1 t2 t3).2 = newObject cb)
      ∨ (cb.state = StateOpen ∧ cb.expiry.After now = true ∧
          (currentState cb now t1 t2 t3).2 =
            { cb with state := StateHalfOpen, lastStateChanged := t3 }) := by
  simp only [currentState, setState]
  split_ifs with h1 h2 h3 h4 h5 <;>
    first
      | exact Or.inl rfl
      | skip
  all_goals simp_all [StateClosed, StateOpen, StateHalfOpen, Time.UTC]

theorem currentState_fst (cb : CircuitBreaker) (now t1 t2 t3 : Time) :
    (currentState cb now t1 t2 t3).1 = (currentState cb now t1 t2 t3).2.state := rfl

theorem Do_open {R E P W : Type} (cb : CircuitBreaker) (req : Work R E P W) (w : W)
    (t1 t2 : Time) (h : cb.state = StateOpen) :
    Do cb req w t1 t2 =
      ⟨Outcome.returns none (some (errors.Wrap (Error.openState ⟨incr32 cb.numRequests⟩)
          "unable to process request at the open state")),
        { cb with numRequests := incr32 cb.numRequests }, w⟩ := by
  simp [Do, beforeRequest, h]

theorem DoAll_open {R E P W : Type} (calls : List (Call R E P W)) :
    ∀ (cb : CircuitBreaker) (w : W), cb.state = StateOpen →
      (DoAll cb w calls).2 =
          ({ cb with numRequests := incr32^[calls.length] cb.numRequests }, w)
        ∧ ∀ o ∈ (DoAll cb w calls).1, ∃ n, o =
            Outcome.returns none (some (errors.Wrap (Error.openState ⟨n⟩)
              "unable to process request at the open state")) := by
  induction calls with
  | nil =>
    intro cb w _
    exact ⟨rfl, fun o ho => absurd ho (List.not_mem_nil o)⟩
  | cons c cs ih =>
    intro cb w h
    have hd := Do_open cb c.req w c.t1 c.t2 h
    obtain ⟨i1, i2⟩ := ih { cb with numRequests := incr32 cb.numRequests } w h
    simp only [DoAll, hd]
    constructor
    · rw [Prod.ext_iff] at i1 ⊢
      refine ⟨?_, i1.2⟩
      rw [i1.1]
      simp only [List.length_cons, Function.iterate_succ_apply]
    · intro o ho
      rcases List.mem_cons.mp ho with ho | ho
      · exact ⟨_, ho⟩
      · exact i2 o ho

theorem letThrough_iff (E : Type) (cb : CircuitBreaker) :
    letThrough E cb = true ↔ (beforeRequest E cb).err = none := by
  simp [letThrough, Option.isNone_iff_eq_none]

theorem Do_accept_outcome {R E P W : Type} (cb : CircuitBreaker) (req : Work R E P W)
    (w : W) (t1 t2 : Time) (h : (beforeRequest E cb).err = none) :
    (Do cb req w t1 t2).outcome = Do.passedOn (req w).1
      ∧ (Do cb req w t1 t2).world = (req w).2
      ∧ (((req w).1.isNilPanic = false
            ∧ ((Do cb req w t1 t2).cb =
                onSuccessful { cb with numRequests := incr32 cb.numRequests }
              ∨ (Do cb req w t1 t2).cb =
                onFailure { cb with numRequests := incr32 cb.numRequests } t1 t2))
          ∨ ((req w).1.isNilPanic = true
            ∧ (Do cb req w t1 t2).cb = { cb with numRequests := incr32 cb.numRequests })) := by
  rcases hq : req w with ⟨o, w1⟩
  cases o with
  | returns result err =>
    rw [Do_accept_returns cb req w w1 t1 t2 result err h hq, beforeRequest_cb]
    refine ⟨rfl, rfl, Or.inl ⟨rfl, ?_⟩⟩
    cases err with
    | none => exact Or.inl rfl
    | some e => exact Or.inr rfl
  | panics v =>
    cases v with
    | some v =>
      rw [Do_accept_panics cb req w w1 t1 t2 v h hq, beforeRequest_cb]
      exact ⟨rfl, rfl, Or.inl ⟨rfl, Or.inr rfl⟩⟩
    | none =>
      rw [Do_accept_nil_panic cb req w w1 t1 t2 h hq, beforeRequest_cb]
      exact ⟨rfl, rfl, Or.inr ⟨rfl, rfl⟩⟩

theorem passedOn_of_not_nilPanic {R E P : Type} (o : Outcome R E P)
    (h : o.isNilPanic = false) : Do.passedOn o = o := by
  cases o with
  | returns result err => rfl
  | panics v =>
    cases v with
    | some v => rfl
    | none => exact absurd h (Bool.noConfusion)

theorem Do_reject {R E P W : Type} (cb : CircuitBreaker) (req : Work R E P W)
    (w : W) (t1 t2 : Time) (h : (beforeRequest E cb).err ≠ none) :
    (Do cb req w t1 t2).world = w
      ∧ (Do cb req w t1 t2).cb = { cb with numRequests := incr32 cb.numRequests } := by
  simp only [beforeRequest] at h
  simp only [Do, beforeRequest]
  split_ifs at h ⊢ with h1 h2 h3
  · exact ⟨rfl, rfl⟩
  · exact ⟨rfl, rfl⟩
  · exact absurd rfl h
  · exact absurd rfl h

theorem Do_preserves_untouchedWindow {R E P W : Type} (cb : CircuitBreaker)
    (req : Work R E P W) (w : W) (t1 t2 : Time) (h : untouchedWindow cb) :
    untouchedWindow (Do cb req w t1 t2).cb := by
  obtain ⟨he, hs⟩ := h
  by_cases hb : (beforeRequest E cb).err = none
  · rcases (Do_accept_outcome cb req w t1 t2 hb).2.2 with ⟨-, hc | hc⟩ | ⟨-, hc⟩
    · rw [hc]; exact ⟨he, hs⟩
    · rw [hc]
      refine ⟨((onFailure_counters _ t1 t2).2.2.2.1).trans he, Or.inr ?_⟩
      rw [onFailure_state]
      rcases hs with hs | hs <;> simp [hs, StateClosed, StateOpen, StateHalfOpen]
    · rw [hc]; exact ⟨he, hs⟩
  · rw [(Do_reject cb req w t1 t2 hb).2]; exact ⟨he, hs⟩

theorem currentState_of_untouchedWindow (cb : CircuitBreaker) (now t1 t2 t3 : Time)
    (h : untouchedWindow cb) (hn : Time.zero.Before now = true) :
    currentState cb now t1 t2 t3 = (cb.state, cb) := by
  obtain ⟨he, -⟩ := h
  have hlt : (0 : Int) < now.nanos := by
    simpa [Time.Before, Time.zero] using hn
  have key : (currentState cb now t1 t2 t3).2 = cb := by
    rcases currentState_cases cb now t1 t2 t3 with hc | ⟨-, hz, -, -⟩ | ⟨-, ha, -⟩
    · exact hc
    · rw [he] at hz
      exact absurd hz (by decide)
    · rw [he] at ha
      have hneg : now.nanos < 0 := by
        simpa [Time.After, Time.zero] using ha
      omega
  rw [Prod.ext_iff]
  exact ⟨(currentState_fst cb now t1 t2 t3).trans (by rw [key]), key⟩

theorem run_preserves_untouchedWindow {R E P W : Type} (steps : List (Step R E P W)) :
    ∀ (cb : CircuitBreaker) (w : W), untouchedWindow cb →
      (∀ s ∈ steps, Step.clockAfterZero s) → untouchedWindow (run cb w steps).1 := by
  induction steps with
  | nil => intro cb w h _; exact h
  | cons s ss ih =>
    intro cb w h hs
    have hss : ∀ s ∈ ss, Step.clockAfterZero s :=
      fun x hx => hs x (List.mem_cons_of_mem s hx)
    cases s with
    | doCall c =>
      exact ih _ _ (Do_preserves_untouchedWindow cb c.req w c.t1 c.t2 h) hss
    | current now t1 t2 t3 =>
      have hn : Time.zero.Before now = true := hs _ (List.mem_cons_self _ ss)
      have hc := currentState_of_untouchedWindow cb now t1 t2 t3 h hn
      simp only [run, hc]
      exact ih cb w h hss

theorem NewCircuitBreaker_untouchedWindow : untouchedWindow NewCircuitBreaker :=
  ⟨rfl, Or.inl rfl⟩

theorem Do_counters {R E P W : Type} (cb : CircuitBreaker) (req : Work R E P W) (w : W)
    (t1 t2 : Time) :
    (letThrough E cb = true ∧ (req w).1.isNilPanic = false
        ∧ (Do cb req w t1 t2).cb.numRequests = incr32 (incr32 cb.numRequests)
        ∧ (((Do cb req w t1 t2).cb.numFailedRequests = cb.numFailedRequests
              ∧ (Do cb req w t1 t2).cb.numSuccessfulRequests
                  = incr32 cb.numSuccessfulRequests)
            ∨ ((Do cb req w t1 t2).cb.numFailedRequests = incr32 cb.numFailedRequests
              ∧ (Do cb req w t1 t2).cb.numSuccessfulRequests
                  = cb.numSuccessfulRequests)))
      ∨ (letThrough E cb = true ∧ (req w).1.isNilPanic = true
        ∧ (Do cb req w t1 t2).cb.numRequests = incr32 cb.numRequests
        ∧ (Do cb req w t1 t2).cb.numFailedRequests = cb.numFailedRequests
        ∧ (Do cb req w t1 t2).cb.numSuccessfulRequests = cb.numSuccessfulRequests)
      ∨ (letThrough E cb = false
        ∧ (Do cb req w t1 t2).cb.numRequests = incr32 cb.numRequests
        ∧ (Do cb req w t1 t2).cb.numFailedRequests = cb.numFailedRequests
        ∧ (Do cb req w t1 t2).cb.numSuccessfulRequests = cb.numSuccessfulRequests) := by
  by_cases hb : (beforeRequest E cb).err = none
  · have hl := (letThrough_iff E cb).mpr hb
    rcases (Do_accept_outcome cb req w t1 t2 hb).2.2 with ⟨hn, hc | hc⟩ | ⟨hn, hc⟩
    · left
      rw [hc]
      exact ⟨hl, hn, rfl, Or.inl ⟨rfl, rfl⟩⟩
    · left
      obtain ⟨g1, g2, g3, -, -⟩ :=
        onFailure_counters { cb with numRequests := incr32 cb.numRequests } t1 t2
      rw [hc]
      exact ⟨hl, hn, g1, Or.inr ⟨g2, g3⟩⟩
    · right; left
      rw [hc]
      exact ⟨hl, hn, rfl, rfl, rfl⟩
  · right; right
    refine ⟨?_, ?_⟩
    · rw [Bool.eq_false_iff]
      exact fun h => hb ((letThrough_iff E cb).mp h)
    · rw [(Do_reject cb req w t1 t2 hb).2]
      exact ⟨rfl, rfl, rfl⟩

theorem DoAll_counters {R E P W : Type} (calls : List (Call R E P W)) :
    ∀ (cb : CircuitBreaker) (w : W), ∃ f s : Nat,
      f + s = (tally cb w calls).1
        ∧ (DoAll cb w calls).2.1.numRequests =
            incr32^[2 * (tally cb w calls).1 + nilPanics cb w calls
              + (tally cb w calls).2] cb.numRequests
        ∧ (DoAll cb w calls).2.1.numFailedRequests = incr32^[f] cb.numFailedRequests
        ∧ (DoAll cb w calls).2.1.numSuccessfulRequests
            = incr32^[s] cb.numSuccessfulRequests
        ∧ (tally cb w calls).1 + nilPanics cb w calls + (tally cb w calls).2
            = calls.length := by
  induction calls with
  | nil => intro cb w; exact ⟨0, 0, rfl, rfl, rfl, rfl, rfl⟩
  | cons c cs ih =>
    intro cb w
    obtain ⟨f, s, hfs, hr, hf, hsu, hlen⟩ :=
      ih (Do cb c.req w c.t1 c.t2).cb (Do cb c.req w c.t1 c.t2).world
    have hD : (DoAll cb w (c :: cs)).2.1 =
        (DoAll (Do cb c.req w c.t1 c.t2).cb (Do cb c.req w c.t1 c.t2).world cs).2.1 := rfl
    have hiter : ∀ n x, incr32^[n] (incr32 (incr32 x)) = incr32^[n + 2] x := by
      intro n x
      rw [← Function.iterate_succ_apply, ← Function.iterate_succ_apply]
    rcases Do_counters cb c.req w c.t1 c.t2 with
      ⟨hl, hn, e1, e23⟩ | ⟨hl, hn, e1, e2, e3⟩ | ⟨hl, e1, e2, e3⟩
    · have hT : tally cb w (c :: cs) =
          ((tally (Do cb c.req w c.t1 c.t2).cb (Do cb c.req w c.t1 c.t2).world cs).1 + 1,
            (tally (Do cb c.req w c.t1 c.t2).cb (Do cb c.req w c.t1 c.t2).world cs).2) := by
        simp only [tally, hl, hn, if_true, Bool.false_eq_true, if_false]
      have hP : nilPanics cb w (c :: cs) =
          nilPanics (Do cb c.req w c.t1 c.t2).cb (Do cb c.req w c.t1 c.t2).world cs := by
        simp only [nilPanics, hl, hn, Bool.and_false, Bool.false_eq_true, if_false,
          Nat.zero_add]
      rw [hD, hT, hP, hr, e1, hf, hsu]
      rcases e23 with ⟨e2, e3⟩ | ⟨e2, e3⟩
      · refine ⟨f, s + 1, by simp only []; omega, ?_, by rw [e2], ?_, by
          simp only [List.length_cons]; omega⟩
        · rw [hiter]; congr 1; simp only []; omega
        · rw [e3, ← Function.iterate_succ_apply]
      · refine ⟨f + 1, s, by simp only []; omega, ?_, ?_, by rw [e3], by
          simp only [List.length_cons]; omega⟩
        · rw [hiter]; congr 1; simp only []; omega
        · rw [e2, ← Function.iterate_succ_apply]
    · have hT : tally cb w (c :: cs) =
          tally (Do cb c.req w c.t1 c.t2).cb (Do cb c.req w c.t1 c.t2).world cs := by
        simp only [tally, hl, hn, if_true]
      have hP : nilPanics cb w (c :: cs) =
          1 + nilPanics (Do cb c.req w c.t1 c.t2).cb
            (Do cb c.req w c.t1 c.t2).world cs := by
        simp only [nilPanics, hl, hn, Bool.and_self, if_true]
      rw [hD, hT, hP, hr, e1, hf, hsu, e2, e3]
      refine ⟨f, s, hfs, ?_, rfl, rfl, by simp only [List.length_cons]; omega⟩
      rw [← Function.iterate_succ_apply]
      congr 1
      omega
    · have hT : tally cb w (c :: cs) =
          ((tally (Do cb c.req w c.t1 c.t2).cb (Do cb c.req w c.t1 c.t2).world cs).1,
            (tally (Do cb c.req w c.t1 c.t2).cb (Do cb c.req w c.t1 c.t2).world cs).2 + 1) := by
        simp only [tally, hl, Bool.false_eq_true, if_false]
      have hP : nilPanics cb w (c :: cs) =
          nilPanics (Do cb c.req w c.t1 c.t2).cb (Do cb c.req w c.t1 c.t2).world cs := by
        simp only [nilPanics, hl, Bool.false_and, Bool.false_eq_true, if_false,
          Nat.zero_add]
      rw [hD, hT, hP, hr, e1, hf, hsu, e2, e3]
      refine ⟨f, s, hfs, ?_, rfl, rfl, by simp only [List.length_cons]; omega⟩
      rw [← Function.iterate_succ_apply]
      congr 1

theorem lockDiscipline_append (xs ys : List Action) :
    ∀ held : Bool, lockDiscipline held xs = true → lockDiscipline false ys = true →
      lockDiscipline held (xs ++ ys) = true := by
  induction xs with
  | nil =>
    intro held hx hy
    cases held with
    | false => exact hy
    | true => exact absurd hx (by decide)
  | cons a as ih =>
    intro held hx hy
    cases a <;> cases held <;>
      simp_all [lockDiscipline]

theorem beforeRequest_trace_discipline (cb : CircuitBreaker) :
    lockDiscipline false (beforeRequest.trace cb) = true := by
  simp only [beforeRequest.trace]
  split_ifs <;> rfl

theorem recordRequest_trace_discipline {E : Type} (cb : CircuitBreaker)
    (err : Option (Error E)) : lockDiscipline false (recordRequest.trace cb err) = true := by
  cases err with
  | none => rfl
  | some e =>
    simp only [recordRequest.trace, onFailure.trace, setState.trace]
    split_ifs <;> rfl

/-! ## The claims -/

/-- C1, amended: on a breaker in state Open, for every work function, `Do` returns a nil
result and an error that wraps (`errors.Wrap`) an `openStateError` whose `requests` is
the breaker's `numRequests` after the call; the work function is not called (the world
is left as it was, whatever the work function would do to it); `numRequests` is one
more than before modulo `2^32`: exactly one more when it was below `4294967295`, and
`0` when it was `4294967295`; `state`, `numFailedRequests` and `numSuccessfulRequests`
are unchanged. -/
theorem Do_open_returns_openStateError {R E P W : Type} (cb : CircuitBreaker)
    (req : Work R E P W) (w : W) (t1 t2 : Time) (h : cb.state = StateOpen) :
    (Do cb req w t1 t2).outcome =
        Outcome.returns none (some (Error.wrap
          (Error.openState ⟨(Do cb req w t1 t2).cb.numRequests⟩)
          "unable to process request at the open state"))
      ∧ errors.Cause (Error.wrap
          (Error.openState ⟨(Do cb req w t1 t2).cb.numRequests⟩ : Error E)
          "unable to process request at the open state") =
        Error.openState ⟨(Do cb req w t1 t2).cb.numRequests⟩
      ∧ (Do cb req w t1 t2).world = w
      ∧ (Do cb req w t1 t2).cb.numRequests = (cb.numRequests + 1) % 4294967296
      ∧ (cb.numRequests < 4294967295 →
          (Do cb req w t1 t2).cb.numRequests = cb.numRequests + 1)
      ∧ (cb.numRequests = 4294967295 → (Do cb req w t1 t2).cb.numRequests = 0)
      ∧ (Do cb req w t1 t2).cb.state = cb.state
      ∧ (Do cb req w t1 t2).cb.numFailedRequests = cb.numFailedRequests
      ∧ (Do cb req w t1 t2).cb.numSuccessfulRequests = cb.numSuccessfulRequests := by
  rw [Do_open cb req w t1 t2 h]
  refine ⟨rfl, rfl, rfl, rfl, ?_, ?_, rfl, rfl, rfl⟩
  · intro hlt
    show (cb.numRequests + 1) % 4294967296 = cb.numRequests + 1
    omega
  · intro heq
    show (cb.numRequests + 1) % 4294967296 = 0
    omega

/-- Witness of C1, amended: the Open sample breaker and a work function that counts its
calls. -/
theorem Do_open_returns_openStateError_witness :
    openBreaker.state = StateOpen
      ∧ (Do openBreaker okWork 0 ⟨1⟩ ⟨2⟩).world = 0
      ∧ (Do openBreaker okWork 0 ⟨1⟩ ⟨2⟩).cb.numRequests
          = (openBreaker.numRequests + 1) % 4294967296 :=
  ⟨rfl, (Do_open_returns_openStateError openBreaker okWork 0 ⟨1⟩ ⟨2⟩ rfl).2.2.1,
    (Do_open_returns_openStateError openBreaker okWork 0 ⟨1⟩ ⟨2⟩ rfl).2.2.2.1⟩

/-- Counterexample to C1 as stated: on a breaker in state Open whose `numRequests` is
`4294967295`, `Do` leaves `numRequests = 0`, which is not one more than before. -/
theorem Do_open_numRequests_wraps :
    fullOpenBreaker.state = StateOpen
      ∧ fullOpenBreaker.numRequests = 4294967295
      ∧ (Do fullOpenBreaker okWork 0 ⟨1⟩ ⟨2⟩).cb.numRequests = 0
      ∧ (Do fullOpenBreaker okWork 0 ⟨1⟩ ⟨2⟩).cb.numRequests
          ≠ fullOpenBreaker.numRequests + 1 := by
  have h0 : (Do fullOpenBreaker okWork 0 ⟨1⟩ ⟨2⟩).cb.numRequests = 0 := rfl
  have hn : fullOpenBreaker.numRequests = 4294967295 := rfl
  refine ⟨rfl, hn, h0, ?_⟩
  rw [h0, hn]
  decide

/-- C2: on a breaker in state Closed, one call of `Do` whose work function returns
`(result, err)` with a non-nil `err` leaves the breaker in state Open, increments
`numFailedRequests` by one (the `uint32` increment) and leaves
`numSuccessfulRequests` unchanged. -/
theorem Do_closed_failure_opens {R E P W : Type} (cb : CircuitBreaker)
    (req : Work R E P W) (w w1 : W) (t1 t2 : Time) (result : Option R) (e : Error E)
    (h : cb.state = StateClosed)
    (hreq : req w = (Outcome.returns result (some e), w1)) :
    (Do cb req w t1 t2).cb.state = StateOpen
      ∧ (Do cb req w t1 t2).cb.numFailedRequests = (cb.numFailedRequests + 1) % 4294967296
      ∧ (Do cb req w t1 t2).cb.numSuccessfulRequests = cb.numSuccessfulRequests := by
  rw [Do_accept_returns cb req w w1 t1 t2 result (some e)
    (beforeRequest_err_none_of_closed E cb h) hreq, beforeRequest_cb]
  simp [recordRequest, onFailure, setState, h, StateClosed, StateOpen, incr32, uint32Size]

/-- Witness of C2: a fresh breaker and a failing work function. -/
theorem Do_closed_failure_opens_witness :
    NewCircuitBreaker.state = StateClosed
      ∧ failWork 0 = (Outcome.returns (some 7) (some (Error.other 3)), 1)
      ∧ (Do NewCircuitBreaker failWork 0 ⟨1⟩ ⟨2⟩).cb.state = StateOpen :=
  ⟨rfl, rfl,
    (Do_closed_failure_opens NewCircuitBreaker failWork 0 1 ⟨1⟩ ⟨2⟩ (some 7) (Error.other 3)
      rfl rfl).1⟩

/-- C3, amended: after `n` calls of `Do` in a row, each with a work function that
returns a nil error, on a breaker that starts in state Closed with
`numSuccessfulRequests = 0`, the state is still Closed, `numSuccessfulRequests` is `n`
modulo `2^32` (so it is `n` as long as `n < 2^32`) and `numFailedRequests` is
unchanged. -/
theorem DoAll_closed_success_counts {R E P W : Type} (cb : CircuitBreaker) (w : W)
    (calls : List (Call R E P W)) (h : cb.state = StateClosed)
    (h0 : cb.numSuccessfulRequests = 0) (hs : ∀ c ∈ calls, Work.succeeds c.req) :
    (DoAll cb w calls).2.1.state = StateClosed
      ∧ (DoAll cb w calls).2.1.numSuccessfulRequests = calls.length % 4294967296
      ∧ (calls.length < 4294967296 →
          (DoAll cb w calls).2.1.numSuccessfulRequests = calls.length)
      ∧ (DoAll cb w calls).2.1.numFailedRequests = cb.numFailedRequests := by
  rw [DoAll_closed_success calls cb w h hs]
  refine ⟨h, ?_, ?_, rfl⟩
  · simp only [h0, iterate_incr32_zero, uint32Size]
  · intro hlt
    simp only [h0, iterate_incr32_zero, uint32Size]
    exact Nat.mod_eq_of_lt hlt

/-- Witness of C3, amended: three successful calls on a fresh breaker. -/
theorem DoAll_closed_success_counts_witness :
    NewCircuitBreaker.state = StateClosed
      ∧ NewCircuitBreaker.numSuccessfulRequests = 0
      ∧ (∀ c ∈ [okCall, okCall, okCall], Work.succeeds c.req)
      ∧ (DoAll NewCircuitBreaker 0 [okCall, okCall, okCall]).2.1.numSuccessfulRequests
          = 3 % 4294967296 :=
  have hs : ∀ c ∈ [okCall, okCall, okCall], Work.succeeds c.req := by
    intro c hc
    simp only [List.mem_cons, List.mem_singleton, List.not_mem_nil, or_false, or_self] at hc
    subst hc
    exact okWork_succeeds
  ⟨rfl, rfl, hs,
    (DoAll_closed_success_counts NewCircuitBreaker 0 [okCall, okCall, okCall] rfl rfl hs).2.1⟩

/-- Counterexample to C3 as stated: after `2^32` successful calls on a fresh breaker
(state Closed, `numSuccessfulRequests = 0`) the counter has wrapped to `0`; it is not
the number of calls. -/
theorem DoAll_closed_success_count_wraps :
    NewCircuitBreaker.state = StateClosed
      ∧ NewCircuitBreaker.numSuccessfulRequests = 0
      ∧ (∀ c ∈ List.replicate 4294967296 okCall, Work.succeeds c.req)
      ∧ (List.replicate 4294967296 okCall).length = 4294967296
      ∧ (DoAll NewCircuitBreaker 0
          (List.replicate 4294967296 okCall)).2.1.numSuccessfulRequests = 0
      ∧ (DoAll NewCircuitBreaker 0
          (List.replicate 4294967296 okCall)).2.1.numSuccessfulRequests
          ≠ (List.replicate 4294967296 okCall).length := by
  have hs := replicate_okCall_succeeds 4294967296
  have hv : (DoAll NewCircuitBreaker 0
      (List.replicate 4294967296 okCall)).2.1.numSuccessfulRequests = 0 := by
    rw [DoAll_closed_success_numSuccessful NewCircuitBreaker 0 _ rfl rfl hs,
      List.length_replicate]
    rfl
  refine ⟨rfl, rfl, hs, List.length_replicate _ _, hv, ?_⟩
  rw [hv, List.length_replicate]
  decide

/-- C4, the code at the failing input: on a breaker in state HalfOpen at the start of a
window with `maxRequests = 2`, the first successful call is let through and the second
one is already turned down with a `requestsLimitError` (`requests = 3`), its work
function not called: the world counts one call of the work function. With the default
budget `maxRequests = 5`, six calls in a row run the work function three times. -/
theorem DoAll_halfOpen_budget_halved :
    DoAll (halfOpenBreaker 2) 0 [okCall, okCall] =
        ([Outcome.returns (some 7) none,
          Outcome.returns none (some (errors.Wrap (Error.requestsLimit ⟨3, 2⟩)
            "unable to process request with reaching limit"))],
          { halfOpenBreaker 2 with numRequests := 3, numSuccessfulRequests := 1 }, 1)
      ∧ (DoAll (halfOpenBreaker 5) 0 (List.replicate 6 okCall)).2.2 = 3 := by
  constructor <;> rfl

/-- C5, the code at the failing input: after one call of `Do` with a successful work
function on the breaker `NewCircuitBreaker` returns, `numRequests` is 2, and after
three such calls it is 6. -/
theorem DoAll_new_numRequests_double :
    (DoAll NewCircuitBreaker 0 [okCall]).2.1.numRequests = 2
      ∧ (DoAll NewCircuitBreaker 0 [okCall, okCall, okCall]).2.1.numRequests = 6 := by
  constructor <;> rfl

/-- C6: on a breaker on which `beforeRequest` lets the call through, when the work
function returns `(result, err)`, `Do` returns that same pair, `err` nil or not (and
the work function has been run: the world is the one it left). -/
theorem Do_returns_work_pair {R E P W : Type} (cb : CircuitBreaker) (req : Work R E P W)
    (w w1 : W) (t1 t2 : Time) (result : Option R) (err : Option (Error E))
    (h : (beforeRequest E cb).err = none)
    (hreq : req w = (Outcome.returns result err, w1)) :
    (Do cb req w t1 t2).outcome = Outcome.returns result err
      ∧ (Do cb req w t1 t2).world = w1 := by
  rw [Do_accept_returns cb req w w1 t1 t2 result err h hreq]
  exact ⟨rfl, rfl⟩

/-- Witness of C6: a failing work function on a fresh breaker. -/
theorem Do_returns_work_pair_witness :
    (beforeRequest Nat NewCircuitBreaker).err = none
      ∧ failWork 0 = (Outcome.returns (some 7) (some (Error.other 3)), 1)
      ∧ (Do NewCircuitBreaker failWork 0 ⟨1⟩ ⟨2⟩).outcome
          = Outcome.returns (some 7) (some (Error.other 3)) :=
  ⟨rfl, rfl,
    (Do_returns_work_pair NewCircuitBreaker failWork 0 1 ⟨1⟩ ⟨2⟩ (some 7)
      (some (Error.other 3)) rfl rfl).1⟩

/-- C7, amended: on a breaker on which `beforeRequest` lets the call through, when the
work function panics with a value `v` that is not nil (`recover()` returns it in the
deferred closure), `Do` records the failure `errCompleteProcess` (the breaker is left
as `recordRequest(errCompleteProcess)` leaves it: `numFailedRequests` is incremented by
one, a Closed or HalfOpen breaker is moved to Open) and the call ends in a panic with
the same value `v`: it does not return. -/
theorem Do_panic_recorded_and_raised {R E P W : Type} (cb : CircuitBreaker)
    (req : Work R E P W) (w w1 : W) (t1 t2 : Time) (v : P)
    (h : (beforeRequest E cb).err = none)
    (hreq : req w = (Outcome.panics (some v), w1)) :
    (Do cb req w t1 t2).outcome = Outcome.panics (some v)
      ∧ (∀ result err, (Do cb req w t1 t2).outcome ≠ Outcome.returns result err)
      ∧ (Do cb req w t1 t2).world = w1
      ∧ (Do cb req w t1 t2).cb =
          recordRequest (beforeRequest E cb).cb (some (errCompleteProcess : Error E)) t1 t2
      ∧ (Do cb req w t1 t2).cb.numFailedRequests
          = (cb.numFailedRequests + 1) % 4294967296
      ∧ (cb.state = StateClosed ∨ cb.state = StateHalfOpen →
          (Do cb req w t1 t2).cb.state = StateOpen) := by
  rw [Do_accept_panics cb req w w1 t1 t2 v h hreq, beforeRequest_cb]
  refine ⟨rfl, ?_, rfl, rfl, ?_, ?_⟩
  · intro result err hne
    exact Outcome.noConfusion hne
  · simp only [recordRequest, onFailure, setState]
    split_ifs <;> simp [incr32, uint32Size]
  · rintro (hc | hc) <;>
      simp [recordRequest, onFailure, setState, hc, StateClosed, StateOpen,
        StateHalfOpen]

/-- Witness of C7, amended: a work function that panics with the value 9 on a fresh
breaker. -/
theorem Do_panic_recorded_and_raised_witness :
    (beforeRequest Nat NewCircuitBreaker).err = none
      ∧ panicWork 0 = (Outcome.panics (some 9), 1)
      ∧ (Do NewCircuitBreaker panicWork 0 ⟨1⟩ ⟨2⟩).outcome = Outcome.panics (some 9)
      ∧ (Do NewCircuitBreaker panicWork 0 ⟨1⟩ ⟨2⟩).cb.numFailedRequests = 1 :=
  ⟨rfl, rfl,
    (Do_panic_recorded_and_raised NewCircuitBreaker panicWork 0 1 ⟨1⟩ ⟨2⟩ 9 rfl rfl).1,
    rfl⟩

/-- Counterexample to C7 as stated: on a fresh breaker, which lets the call through, a
work function that panics with a nil value (`panic(nil)` under the semantics of Go 1.20
and earlier, where `recover()` then returns nil) is run, nothing is recorded
(`numFailedRequests` stays 0, the state stays Closed, `numRequests` is 1) and `Do`
returns `(nil, nil)` to its caller: the panic does not reach it. -/
theorem Do_nil_panic_swallowed :
    (beforeRequest Nat NewCircuitBreaker).err = none
      ∧ nilPanicWork 0 = (Outcome.panics none, 1)
      ∧ (Do NewCircuitBreaker nilPanicWork 0 ⟨1⟩ ⟨2⟩).outcome = Outcome.returns none none
      ∧ (Do NewCircuitBreaker nilPanicWork 0 ⟨1⟩ ⟨2⟩).world = 1
      ∧ (Do NewCircuitBreaker nilPanicWork 0 ⟨1⟩ ⟨2⟩).cb
          = { NewCircuitBreaker with numRequests := 1 }
      ∧ (Do NewCircuitBreaker nilPanicWork 0 ⟨1⟩ ⟨2⟩).cb.numFailedRequests = 0
      ∧ (Do NewCircuitBreaker nilPanicWork 0 ⟨1⟩ ⟨2⟩).cb.state = StateClosed := by
  refine ⟨rfl, rfl, rfl, rfl, rfl, rfl, rfl⟩

/-- C8: the breaker `NewCircuitBreaker` returns has state Closed, its three counters
are zero, `maxRequests` is 5 and `openInterval` is one minute (`60 * 10^9` ns). -/
theorem NewCircuitBreaker_fields :
    NewCircuitBreaker.state = StateClosed
      ∧ NewCircuitBreaker.numRequests = 0
      ∧ NewCircuitBreaker.numFailedRequests = 0
      ∧ NewCircuitBreaker.numSuccessfulRequests = 0
      ∧ NewCircuitBreaker.maxRequests = 5
      ∧ NewCircuitBreaker.openInterval = Minute
      ∧ NewCircuitBreaker.openInterval = 60000000000 := by
  refine ⟨rfl, rfl, rfl, rfl, rfl, ?_, ?_⟩ <;> simp [NewCircuitBreaker, Minute]

/-- C9: `beforeRequest` increments `numRequests` by one (the `uint32` increment) and
then: in state Open it returns `openStateError` with the new `numRequests`; in state
HalfOpen with the new `numRequests` above `maxRequests` it returns `requestsLimitError`
with the new `numRequests` and `maxRequests`; it returns no error exactly when neither
holds, which for the three states is: state Closed, or HalfOpen with the new
`numRequests` at most `maxRequests`. It changes no field but `numRequests`. -/
theorem beforeRequest_cases (E : Type) (cb : CircuitBreaker) :
    (beforeRequest E cb).cb.numRequests = (cb.numRequests + 1) % 4294967296
      ∧ (beforeRequest E cb).n = 0
      ∧ (cb.state = StateOpen →
          (beforeRequest E cb).err =
            some (Error.openState ⟨(beforeRequest E cb).cb.numRequests⟩))
      ∧ (cb.state = StateHalfOpen →
          (beforeRequest E cb).cb.numRequests > cb.maxRequests →
          (beforeRequest E cb).err =
            some (Error.requestsLimit
              ⟨(beforeRequest E cb).cb.numRequests, cb.maxRequests⟩))
      ∧ ((beforeRequest E cb).err = none ↔
          ¬ (cb.state = StateOpen) ∧
            ¬ (cb.state = StateHalfOpen ∧
                (beforeRequest E cb).cb.numRequests > cb.maxRequests))
      ∧ (State.known cb.state →
          ((beforeRequest E cb).err = none ↔
            cb.state = StateClosed ∨
              (cb.state = StateHalfOpen ∧
                (beforeRequest E cb).cb.numRequests ≤ cb.maxRequests)))
      ∧ (beforeRequest E cb).cb.state = cb.state
      ∧ (beforeRequest E cb).cb.numFailedRequests = cb.numFailedRequests
      ∧ (beforeRequest E cb).cb.numSuccessfulRequests = cb.numSuccessfulRequests
      ∧ (beforeRequest E cb).cb = { cb with numRequests := (cb.numRequests + 1) % 4294967296 } := by
  have hiff := beforeRequest_err_none_iff E cb
  rw [beforeRequest_cb] at *
  refine ⟨rfl, ?_, ?_, ?_, ?_, ?_, rfl, rfl, rfl, rfl⟩
  · simp only [beforeRequest]; split_ifs <;> rfl
  · intro ho
    simp [beforeRequest, ho]
  · intro hh hgt
    have hgt2 : incr32 cb.numRequests > cb.maxRequests := hgt
    simp [beforeRequest, hh, hgt2, StateHalfOpen, StateOpen]
  · exact hiff
  · intro hk
    rw [hiff]
    show _ ↔ cb.state = StateClosed ∨ (cb.state = StateHalfOpen ∧ incr32 cb.numRequests ≤ cb.maxRequests)
    rcases hk with hk | hk | hk <;>
      simp [hk, StateClosed, StateOpen, StateHalfOpen]

/-- Witness of C9: in state HalfOpen with budget 0 the first call is over the budget. -/
theorem beforeRequest_cases_witness :
    State.known (halfOpenBreaker 0).state
      ∧ ((beforeRequest Nat (halfOpenBreaker 0)).err = none ↔
          (halfOpenBreaker 0).state = StateClosed ∨
            ((halfOpenBreaker 0).state = StateHalfOpen ∧
              (beforeRequest Nat (halfOpenBreaker 0)).cb.numRequests
                ≤ (halfOpenBreaker 0).maxRequests)) :=
  ⟨Or.inr (Or.inr rfl),
    (beforeRequest_cases Nat (halfOpenBreaker 0)).2.2.2.2.2.1 (Or.inr (Or.inr rfl))⟩

/-- C10: on a breaker in state HalfOpen on which `beforeRequest` lets the call through,
one call of `Do` whose work function returns a non-nil error leaves the breaker in
state Open. -/
theorem Do_halfOpen_failure_opens {R E P W : Type} (cb : CircuitBreaker)
    (req : Work R E P W) (w w1 : W) (t1 t2 : Time) (result : Option R) (e : Error E)
    (h : cb.state = StateHalfOpen)
    (ha : (beforeRequest E cb).err = none)
    (hreq : req w = (Outcome.returns result (some e), w1)) :
    (Do cb req w t1 t2).cb.state = StateOpen := by
  rw [Do_accept_returns cb req w w1 t1 t2 result (some e) ha hreq, beforeRequest_cb]
  simp [recordRequest, onFailure, setState, h, StateClosed, StateOpen, StateHalfOpen]

/-- Witness of C10: the first call in a HalfOpen window of budget 5 fails. -/
theorem Do_halfOpen_failure_opens_witness :
    (halfOpenBreaker 5).state = StateHalfOpen
      ∧ (beforeRequest Nat (halfOpenBreaker 5)).err = none
      ∧ failWork 0 = (Outcome.returns (some 7) (some (Error.other 3)), 1)
      ∧ (Do (halfOpenBreaker 5) failWork 0 ⟨1⟩ ⟨2⟩).cb.state = StateOpen :=
  ⟨rfl, rfl, rfl,
    Do_halfOpen_failure_opens (halfOpenBreaker 5) failWork 0 1 ⟨1⟩ ⟨2⟩ (some 7)
      (Error.other 3) rfl rfl rfl⟩

/-- C11, the code at the failing input: on a breaker in state Open whose `expiry`
(5 ns) is before `now` (10 ns), `currentState` returns Open and leaves every field as
it was: no move to HalfOpen, no reset, no stamp. The move is taken when `expiry` is
after `now` (20 ns against 10 ns), and then the counters 3, 1, 1 are kept. -/
theorem currentState_open_expired_unchanged :
    openExpired.state = StateOpen
      ∧ openExpired.expiry.Before ⟨10⟩ = true
      ∧ currentState openExpired ⟨10⟩ ⟨11⟩ ⟨12⟩ ⟨13⟩ = (StateOpen, openExpired)
      ∧ currentState { openExpired with expiry := ⟨20⟩ } ⟨10⟩ ⟨11⟩ ⟨12⟩ ⟨13⟩ =
          (StateHalfOpen,
            { openExpired with
              expiry := ⟨20⟩, state := StateHalfOpen, lastStateChanged := ⟨13⟩ }) := by
  refine ⟨rfl, rfl, rfl, rfl⟩

/-- C12, the code at the failing input: on a breaker in state Closed whose `expiry`
(5 ns) is set and before `now` (10 ns), `currentState` resets the counters and keeps
the state, but leaves `expiry` at 5 ns: not the zero time and not later than `now`. The
window is still expired, so after one more successful call of `Do` a second
`currentState` at the same `now` resets the counters again. -/
theorem currentState_closed_expired_keeps_expiry :
    closedExpired.state = StateClosed
      ∧ closedExpired.expiry.IsZero = false
      ∧ closedExpired.expiry.Before ⟨10⟩ = true
      ∧ currentState closedExpired ⟨10⟩ ⟨11⟩ ⟨12⟩ ⟨13⟩ =
          (StateClosed,
            { closedExpired with
              numRequests := 0, numFailedRequests := 0, numSuccessfulRequests := 0 })
      ∧ (currentState closedExpired ⟨10⟩ ⟨11⟩ ⟨12⟩ ⟨13⟩).2.expiry = ⟨5⟩
      ∧ (currentState closedExpired ⟨10⟩ ⟨11⟩ ⟨12⟩ ⟨13⟩).2.expiry.IsZero = false
      ∧ (currentState closedExpired ⟨10⟩ ⟨11⟩ ⟨12⟩ ⟨13⟩).2.expiry.After ⟨10⟩ = false
      ∧ (Do (currentState closedExpired ⟨10⟩ ⟨11⟩ ⟨12⟩ ⟨13⟩).2 okWork 0
            ⟨10⟩ ⟨10⟩).cb.numSuccessfulRequests = 1
      ∧ (currentState
            (Do (currentState closedExpired ⟨10⟩ ⟨11⟩ ⟨12⟩ ⟨13⟩).2 okWork 0 ⟨10⟩ ⟨10⟩).cb
            ⟨10⟩ ⟨11⟩ ⟨12⟩ ⟨13⟩).2.numSuccessfulRequests = 0 := by
  refine ⟨rfl, rfl, rfl, rfl, rfl, rfl, rfl, rfl, rfl⟩

/-- C13: whatever the state, `recordRequest(nil)` increments `numRequests` and
`numSuccessfulRequests` by one each (the `uint32` increment) and changes nothing else:
`state`, `numFailedRequests` and `lastStateChanged` are as before, and a breaker in
state HalfOpen is not moved to Closed. -/
theorem recordRequest_nil_effect (E : Type) (cb : CircuitBreaker) (t1 t2 : Time) :
    recordRequest cb (none : Option (Error E)) t1 t2 =
        { cb with
          numRequests := (cb.numRequests + 1) % 4294967296,
          numSuccessfulRequests := (cb.numSuccessfulRequests + 1) % 4294967296 }
      ∧ (recordRequest cb (none : Option (Error E)) t1 t2).numRequests
          = (cb.numRequests + 1) % 4294967296
      ∧ (recordRequest cb (none : Option (Error E)) t1 t2).numSuccessfulRequests
          = (cb.numSuccessfulRequests + 1) % 4294967296
      ∧ (recordRequest cb (none : Option (Error E)) t1 t2).state = cb.state
      ∧ (recordRequest cb (none : Option (Error E)) t1 t2).numFailedRequests
          = cb.numFailedRequests
      ∧ (recordRequest cb (none : Option (Error E)) t1 t2).lastStateChanged
          = cb.lastStateChanged
      ∧ (cb.state = StateHalfOpen →
          (recordRequest cb (none : Option (Error E)) t1 t2).state = StateHalfOpen
            ∧ (recordRequest cb (none : Option (Error E)) t1 t2).state ≠ StateClosed) := by
  refine ⟨rfl, rfl, rfl, rfl, rfl, rfl, ?_⟩
  intro h
  have hs : (recordRequest cb (none : Option (Error E)) t1 t2).state = cb.state := rfl
  rw [hs, h]
  exact ⟨rfl, by decide⟩

/-- Witness of C13: a success recorded in state HalfOpen. -/
theorem recordRequest_nil_effect_witness :
    (halfOpenBreaker 5).state = StateHalfOpen
      ∧ (recordRequest (halfOpenBreaker 5) (none : Option (Error Nat)) ⟨1⟩ ⟨2⟩).state
          = StateHalfOpen :=
  ⟨rfl,
    ((recordRequest_nil_effect Nat (halfOpenBreaker 5) ⟨1⟩ ⟨2⟩).2.2.2.2.2.2 rfl).1⟩

/-- C14: `State.String` maps `StateClosed` to "state is closed", `StateOpen` to
"state is open" and `StateHalfOpen` to "state is half-open"; the three strings are
pairwise distinct; every other value `n` is rendered as "unknown state: " followed by
`n` in decimal, for instance "unknown state: 7" and "unknown state: -12". -/
theorem State_String_cases :
    State.String StateClosed = "state is closed"
      ∧ State.String StateOpen = "state is open"
      ∧ State.String StateHalfOpen = "state is half-open"
      ∧ State.String StateClosed ≠ State.String StateOpen
      ∧ State.String StateClosed ≠ State.String StateHalfOpen
      ∧ State.String StateOpen ≠ State.String StateHalfOpen
      ∧ (∀ n : State, ¬ State.known n →
          State.String n = "unknown state: " ++ formatDecimal n)
      ∧ State.String 7 = "unknown state: 7"
      ∧ State.String (-12) = "unknown state: -12" := by
  refine ⟨rfl, rfl, rfl, by decide, by decide, by decide, ?_, by decide, by decide⟩
  intro n hn
  have h0 : ¬ n = StateClosed := fun h => hn (Or.inl h)
  have h1 : ¬ n = StateOpen := fun h => hn (Or.inr (Or.inl h))
  have h2 : ¬ n = StateHalfOpen := fun h => hn (Or.inr (Or.inr h))
  simp only [State.String, h0, h1, h2, if_false]

/-- Witness of C14: the value 7 is none of the three constants. -/
theorem State_String_cases_witness :
    ¬ State.known 7 ∧ State.String 7 = "unknown state: " ++ formatDecimal 7 :=
  have h : ¬ State.known 7 := by
    simp [State.known, StateClosed, StateOpen, StateHalfOpen]
  ⟨h, State_String_cases.2.2.2.2.2.2.1 7 h⟩

/-- C16, amended: with the counters holding `uint32` values, after `beforeRequest`,
`recordRequest(nil)` and `recordRequest(err)` every counter is either not smaller than
before or it was `4294967295` and has wrapped to `0` (the counters the operation does
not increment are unchanged), so no counter is smaller as long as none is
`4294967295` before; and for `clear`, `newObject` and `currentState`, if any counter is
smaller afterwards than before then all three counters are zero afterwards. -/
theorem counters_not_smaller_or_wrapped (E : Type) (cb : CircuitBreaker) (e : Error E)
    (now t1 t2 t3 : Time) (h : cb.uint32Counters) :
    (notSmallerOrWrapped cb.numRequests (beforeRequest E cb).cb.numRequests
        ∧ (beforeRequest E cb).cb.numFailedRequests = cb.numFailedRequests
        ∧ (beforeRequest E cb).cb.numSuccessfulRequests = cb.numSuccessfulRequests)
      ∧ (notSmallerOrWrapped cb.numRequests
            (recordRequest cb (none : Option (Error E)) t1 t2).numRequests
          ∧ (recordRequest cb (none : Option (Error E)) t1 t2).numFailedRequests
              = cb.numFailedRequests
          ∧ notSmallerOrWrapped cb.numSuccessfulRequests
              (recordRequest cb (none : Option (Error E)) t1 t2).numSuccessfulRequests)
      ∧ (notSmallerOrWrapped cb.numRequests (recordRequest cb (some e) t1 t2).numRequests
          ∧ notSmallerOrWrapped cb.numFailedRequests
              (recordRequest cb (some e) t1 t2).numFailedRequests
          ∧ (recordRequest cb (some e) t1 t2).numSuccessfulRequests
              = cb.numSuccessfulRequests)
      ∧ (cb.numRequests ≠ 4294967295 → cb.numFailedRequests ≠ 4294967295 →
          cb.numSuccessfulRequests ≠ 4294967295 →
            ¬ anySmaller cb (beforeRequest E cb).cb
              ∧ ¬ anySmaller cb (recordRequest cb (none : Option (Error E)) t1 t2)
              ∧ ¬ anySmaller cb (recordRequest cb (some e) t1 t2))
      ∧ (anySmaller cb (clear cb) → allZero (clear cb))
      ∧ (anySmaller cb (newObject cb) → allZero (newObject cb))
      ∧ (anySmaller cb (currentState cb now t1 t2 t3).2 →
          allZero (currentState cb now t1 t2 t3).2) := by
  obtain ⟨hr, hf, hs⟩ := h
  have kr := incr32_notSmallerOrWrapped cb.numRequests hr
  have kf := incr32_notSmallerOrWrapped cb.numFailedRequests hf
  have ks := incr32_notSmallerOrWrapped cb.numSuccessfulRequests hs
  obtain ⟨f1, f2, f3, -, -⟩ := onFailure_counters cb t1 t2
  have b := beforeRequest_cb E cb
  have rn : recordRequest cb (none : Option (Error E)) t1 t2 = onSuccessful cb := rfl
  have re : recordRequest cb (some e) t1 t2 = onFailure cb t1 t2 := rfl
  refine ⟨⟨?_, ?_, ?_⟩, ⟨kr, rfl, ks⟩, ⟨?_, ?_, ?_⟩, ?_, ?_, ?_, ?_⟩
  · rw [b]; exact kr
  · rw [b]
  · rw [b]
  · rw [re, f1]; exact kr
  · rw [re, f2]; exact kf
  · rw [re, f3]
  · intro nr nf ns
    rw [b, rn, re]
    simp only [anySmaller, f1, f2, f3, onSuccessful]
    simp only [notSmallerOrWrapped] at kr kf ks
    refine ⟨?_, ?_, ?_⟩ <;> omega
  · intro _
    exact ⟨rfl, rfl, rfl⟩
  · intro _
    obtain ⟨n1, n2, n3, -, -⟩ := newObject_fields cb
    exact ⟨n1, n2, n3⟩
  · intro hsm
    rcases currentState_cases cb now t1 t2 t3 with hc | ⟨-, -, -, hc⟩ | ⟨-, -, hc⟩
    · rw [hc] at hsm
      simp only [anySmaller] at hsm
      omega
    · rw [hc]
      obtain ⟨n1, n2, n3, -, -⟩ := newObject_fields cb
      exact ⟨n1, n2, n3⟩
    · rw [hc] at hsm
      simp only [anySmaller] at hsm
      omega

/-- Witness of C16, amended: the counters 3, 1, 1 of the sample Open breaker. -/
theorem counters_not_smaller_or_wrapped_witness :
    openExpired.uint32Counters
      ∧ notSmallerOrWrapped openExpired.numRequests
          (beforeRequest Nat openExpired).cb.numRequests :=
  have h : openExpired.uint32Counters := by
    simp [CircuitBreaker.uint32Counters, openExpired, NewCircuitBreaker]
  ⟨h, (counters_not_smaller_or_wrapped Nat openExpired (Error.other 3)
    ⟨10⟩ ⟨11⟩ ⟨12⟩ ⟨13⟩ h).1.1⟩

/-- Counterexample to C16 as stated: the counters 4294967295, 1, 2 are `uint32` values;
`beforeRequest` wraps `numRequests` to 0, which is smaller than before, and the other
two counters are not zero afterwards. -/
theorem beforeRequest_wraps_numRequests :
    fullBreaker.uint32Counters
      ∧ (beforeRequest Nat fullBreaker).cb.numRequests = 0
      ∧ (beforeRequest Nat fullBreaker).cb.numRequests < fullBreaker.numRequests
      ∧ anySmaller fullBreaker (beforeRequest Nat fullBreaker).cb
      ∧ ¬ allZero (beforeRequest Nat fullBreaker).cb := by
  have hn : (beforeRequest Nat fullBreaker).cb.numRequests = 0 := rfl
  have hf : (beforeRequest Nat fullBreaker).cb.numFailedRequests = 1 := rfl
  have hb : fullBreaker.numRequests = 4294967295 := rfl
  refine ⟨?_, hn, ?_, ?_, ?_⟩
  · simp [CircuitBreaker.uint32Counters, fullBreaker, NewCircuitBreaker]
  · rw [hn, hb]; decide
  · left; rw [hn, hb]; decide
  · rintro ⟨-, h2, -⟩
    rw [hf] at h2
    exact absurd h2 (by decide)

/-- C17: on a breaker in state Open, after every finite sequence of `Do` calls with
arbitrary work functions, and after each call of the sequence, the state is still Open
and no work function has been called (the world is the one before the first call);
every call returns the wrapped `openStateError`. -/
theorem DoAll_open_stays_open {R E P W : Type} (cb : CircuitBreaker) (w : W)
    (calls : List (Call R E P W)) (h : cb.state = StateOpen) :
    (DoAll cb w calls).2.1.state = StateOpen
      ∧ (DoAll cb w calls).2.2 = w
      ∧ (∀ k, (DoAll cb w (calls.take k)).2.1.state = StateOpen
          ∧ (DoAll cb w (calls.take k)).2.2 = w)
      ∧ (∀ o ∈ (DoAll cb w calls).1, ∃ n, o =
          Outcome.returns none (some (errors.Wrap (Error.openState ⟨n⟩)
            "unable to process request at the open state"))) := by
  have key : ∀ cs : List (Call R E P W),
      (DoAll cb w cs).2.1.state = StateOpen ∧ (DoAll cb w cs).2.2 = w := by
    intro cs
    rw [(DoAll_open cs cb w h).1]
    exact ⟨h, rfl⟩
  exact ⟨(key calls).1, (key calls).2, fun k => key (calls.take k),
    (DoAll_open calls cb w h).2⟩

/-- Witness of C17: a successful, a failing and a panicking work function offered to
the Open sample breaker. -/
theorem DoAll_open_stays_open_witness :
    openBreaker.state = StateOpen
      ∧ (DoAll openBreaker 0
          [okCall, ⟨failWork, ⟨1⟩, ⟨2⟩⟩, ⟨panicWork, ⟨3⟩, ⟨4⟩⟩]).2.1.state = StateOpen
      ∧ (DoAll openBreaker 0
          [okCall, ⟨failWork, ⟨1⟩, ⟨2⟩⟩, ⟨panicWork, ⟨3⟩, ⟨4⟩⟩]).2.2 = 0 :=
  ⟨rfl,
    (DoAll_open_stays_open openBreaker 0
      [okCall, ⟨failWork, ⟨1⟩, ⟨2⟩⟩, ⟨panicWork, ⟨3⟩, ⟨4⟩⟩] rfl).1,
    (DoAll_open_stays_open openBreaker 0
      [okCall, ⟨failWork, ⟨1⟩, ⟨2⟩⟩, ⟨panicWork, ⟨3⟩, ⟨4⟩⟩] rfl).2.1⟩

/-- C18: for `recordRequest` with a failure and for `currentState`, whatever the
breaker: if the state after the operation differs from the state before, then
`lastStateChanged` is the clock reading the operation takes for it (`t2` in
`setState`, `t3` in `currentState`; with one instant `now` for the whole operation it
is `now`); if the state is the same, `lastStateChanged` is unchanged, as for a failure
recorded in state Open. -/
theorem lastStateChanged_follows_state (E : Type) (cb : CircuitBreaker) (e : Error E)
    (now t1 t2 t3 : Time) :
    ((recordRequest cb (some e) t1 t2).state ≠ cb.state →
        (recordRequest cb (some e) t1 t2).lastStateChanged = t2)
      ∧ ((recordRequest cb (some e) t1 t2).state = cb.state →
        (recordRequest cb (some e) t1 t2).lastStateChanged = cb.lastStateChanged)
      ∧ ((currentState cb now t1 t2 t3).2.state ≠ cb.state →
        (currentState cb now t1 t2 t3).2.lastStateChanged = t3)
      ∧ ((currentState cb now t1 t2 t3).2.state = cb.state →
        (currentState cb now t1 t2 t3).2.lastStateChanged = cb.lastStateChanged)
      ∧ ((recordRequest cb (some e) now now).state ≠ cb.state →
        (recordRequest cb (some e) now now).lastStateChanged = now)
      ∧ ((currentState cb now now now now).2.state ≠ cb.state →
        (currentState cb now now now now).2.lastStateChanged = now)
      ∧ (cb.state = StateOpen →
        (recordRequest cb (some e) t1 t2).state = StateOpen
          ∧ (recordRequest cb (some e) t1 t2).lastStateChanged = cb.lastStateChanged) := by
  have rec : ∀ u1 u2 : Time,
      ((recordRequest cb (some e) u1 u2).state ≠ cb.state →
          (recordRequest cb (some e) u1 u2).lastStateChanged = u2)
        ∧ ((recordRequest cb (some e) u1 u2).state = cb.state →
          (recordRequest cb (some e) u1 u2).lastStateChanged = cb.lastStateChanged) := by
    intro u1 u2
    simp only [recordRequest, onFailure, setState, Time.UTC]
    split_ifs <;> simp_all [StateClosed, StateOpen, StateHalfOpen]
  have cur : ∀ n u1 u2 u3 : Time,
      ((currentState cb n u1 u2 u3).2.state ≠ cb.state →
          (currentState cb n u1 u2 u3).2.lastStateChanged = u3)
        ∧ ((currentState cb n u1 u2 u3).2.state = cb.state →
          (currentState cb n u1 u2 u3).2.lastStateChanged = cb.lastStateChanged) := by
    intro n u1 u2 u3
    rcases currentState_cases cb n u1 u2 u3 with hc | ⟨-, -, -, hc⟩ | ⟨ho, -, hc⟩
    · rw [hc]; exact ⟨fun hne => absurd rfl hne, fun _ => rfl⟩
    · rw [hc]
      obtain ⟨-, -, -, n4, n5⟩ := newObject_fields cb
      exact ⟨fun hne => absurd n4 hne, fun _ => n5⟩
    · rw [hc]
      refine ⟨fun _ => rfl, fun heq => ?_⟩
      have : StateHalfOpen = cb.state := heq
      rw [ho] at this
      exact absurd this (by decide)
  refine ⟨(rec t1 t2).1, (rec t1 t2).2, (cur now t1 t2 t3).1, (cur now t1 t2 t3).2,
    (rec now now).1, (cur now now now now).1, ?_⟩
  intro ho
  have hs : (recordRequest cb (some e) t1 t2).state = StateOpen := by
    show (onFailure cb t1 t2).state = StateOpen
    rw [onFailure_state]
    simp [ho, StateClosed, StateOpen, StateHalfOpen]
  exact ⟨hs, (rec t1 t2).2 (hs.trans ho.symm)⟩

/-- Witness of C18: a failure recorded on a fresh breaker changes the state and stamps
`lastStateChanged`; recorded on the Open sample breaker it changes neither. -/
theorem lastStateChanged_follows_state_witness :
    (recordRequest NewCircuitBreaker (some (Error.other 3 : Error Nat)) ⟨1⟩ ⟨2⟩).state
        ≠ NewCircuitBreaker.state
      ∧ (recordRequest NewCircuitBreaker (some (Error.other 3 : Error Nat))
          ⟨1⟩ ⟨2⟩).lastStateChanged = ⟨2⟩
      ∧ openBreaker.state = StateOpen
      ∧ (recordRequest openBreaker (some (Error.other 3 : Error Nat))
          ⟨1⟩ ⟨2⟩).lastStateChanged = openBreaker.lastStateChanged :=
  have hne : (recordRequest NewCircuitBreaker (some (Error.other 3 : Error Nat))
      ⟨1⟩ ⟨2⟩).state ≠ NewCircuitBreaker.state := by decide
  ⟨hne,
    (lastStateChanged_follows_state Nat NewCircuitBreaker (Error.other 3)
      ⟨0⟩ ⟨1⟩ ⟨2⟩ ⟨3⟩).1 hne,
    rfl,
    ((lastStateChanged_follows_state Nat openBreaker (Error.other 3)
      ⟨0⟩ ⟨1⟩ ⟨2⟩ ⟨3⟩).2.2.2.2.2.2 rfl).2⟩

/-- C19: in every state reached from `NewCircuitBreaker` by a finite sequence of `Do`
calls (the work function returning, with or without error, or panicking) and
`currentState` calls whose clock reading `now` is later than the zero time, `expiry` is
the zero time and the state is Closed or Open, not HalfOpen. On such a breaker
`beforeRequest` never returns a `requestsLimitError`: `Do` either turns the call down
with the wrapped `openStateError` (state Open) or runs the work function and ends as
the work function does (state Closed; a panic with a nil value is the exception, `Do`
then returns `(nil, nil)`); and `currentState`, at any `now` later than the zero time,
returns the state and leaves every field, the counters among them, unchanged. -/
theorem reachable_never_halfOpen {R E P W : Type} (steps : List (Step R E P W)) (w : W)
    (hs : ∀ s ∈ steps, Step.clockAfterZero s) :
    (run NewCircuitBreaker w steps).1.expiry = Time.zero
      ∧ ((run NewCircuitBreaker w steps).1.state = StateClosed
          ∨ (run NewCircuitBreaker w steps).1.state = StateOpen)
      ∧ (run NewCircuitBreaker w steps).1.state ≠ StateHalfOpen
      ∧ (∀ e, (beforeRequest E (run NewCircuitBreaker w steps).1).err
          ≠ some (Error.requestsLimit e))
      ∧ (∀ (req : Work R E P W) (w1 : W) (t1 t2 : Time),
          ((run NewCircuitBreaker w steps).1.state = StateOpen
              ∧ (Do (run NewCircuitBreaker w steps).1 req w1 t1 t2).world = w1
              ∧ ∃ n, (Do (run NewCircuitBreaker w steps).1 req w1 t1 t2).outcome =
                  Outcome.returns none (some (errors.Wrap (Error.openState ⟨n⟩)
                    "unable to process request at the open state")))
            ∨ ((run NewCircuitBreaker w steps).1.state = StateClosed
              ∧ (Do (run NewCircuitBreaker w steps).1 req w1 t1 t2).outcome
                  = Do.passedOn (req w1).1
              ∧ ((req w1).1.isNilPanic = false →
                  (Do (run NewCircuitBreaker w steps).1 req w1 t1 t2).outcome = (req w1).1)
              ∧ (Do (run NewCircuitBreaker w steps).1 req w1 t1 t2).world = (req w1).2))
      ∧ (∀ now t1 t2 t3 : Time, Time.zero.Before now = true →
          currentState (run NewCircuitBreaker w steps).1 now t1 t2 t3 =
            ((run NewCircuitBreaker w steps).1.state, (run NewCircuitBreaker w steps).1)) := by
  have inv := run_preserves_untouchedWindow steps NewCircuitBreaker w
    NewCircuitBreaker_untouchedWindow hs
  generalize (run NewCircuitBreaker w steps).1 = cb at inv ⊢
  obtain ⟨he, hst⟩ := inv
  have hne : cb.state ≠ StateHalfOpen := by
    rcases hst with h | h <;> rw [h] <;> decide
  refine ⟨he, hst, hne, ?_, ?_, ?_⟩
  · intro e
    simp only [beforeRequest]
    split_ifs <;> simp
  · intro req w1 t1 t2
    rcases hst with h | h
    · right
      have hb := beforeRequest_err_none_of_closed E cb h
      exact ⟨h, (Do_accept_outcome cb req w1 t1 t2 hb).1,
        fun hn => ((Do_accept_outcome cb req w1 t1 t2 hb).1).trans
          (passedOn_of_not_nilPanic (req w1).1 hn),
        (Do_accept_outcome cb req w1 t1 t2 hb).2.1⟩
    · left
      rw [Do_open cb req w1 t1 t2 h]
      exact ⟨h, rfl, _, rfl⟩
  · intro now t1 t2 t3 hn
    exact currentState_of_untouchedWindow cb now t1 t2 t3 ⟨he, hst⟩ hn

/-- Witness of C19: a panic with a nil value, a success, a `currentState`, a failure, a
`currentState` and a panic, from a fresh breaker. -/
theorem reachable_never_halfOpen_witness :
    (∀ s ∈ [Step.doCall nilPanicCall, Step.doCall okCall,
        Step.current ⟨10⟩ ⟨11⟩ ⟨12⟩ ⟨13⟩, Step.doCall failCall,
        Step.current ⟨40⟩ ⟨41⟩ ⟨42⟩ ⟨43⟩, Step.doCall panicCall], Step.clockAfterZero s)
      ∧ (run NewCircuitBreaker 0
          [Step.doCall nilPanicCall, Step.doCall okCall,
            Step.current ⟨10⟩ ⟨11⟩ ⟨12⟩ ⟨13⟩, Step.doCall failCall,
            Step.current ⟨40⟩ ⟨41⟩ ⟨42⟩ ⟨43⟩, Step.doCall panicCall]).1.state
          ≠ StateHalfOpen :=
  have hs : ∀ s ∈ [Step.doCall nilPanicCall, Step.doCall okCall,
      Step.current ⟨10⟩ ⟨11⟩ ⟨12⟩ ⟨13⟩, Step.doCall failCall,
      Step.current ⟨40⟩ ⟨41⟩ ⟨42⟩ ⟨43⟩, Step.doCall panicCall],
      Step.clockAfterZero s := by
    intro s h
    simp only [List.mem_cons, List.mem_singleton, List.not_mem_nil, or_false] at h
    rcases h with h | h | h | h | h | h <;> subst h <;>
      simp [Step.clockAfterZero, Time.Before, Time.zero]
  ⟨hs, (reachable_never_halfOpen _ 0 hs).2.2.1⟩

/-- C20, amended: take a finite sequence of `Do` calls on the breaker
`NewCircuitBreaker` returns in which no call let through by `beforeRequest` has a work
function that panics with a nil value. If `beforeRequest` lets `a` calls through (the
work function is run and returns, or panics with a non-nil value) and turns `r` calls
down (`a + r` is the number of calls), then afterwards `numRequests` is `2 * a + r` and
`numFailedRequests + numSuccessfulRequests` is `a`, both modulo `2^32`; as long as
`2 * a + r < 2^32` (no wrap of `numRequests`) the equalities hold as they stand and
`numFailedRequests + numSuccessfulRequests ≤ numRequests`. A call let through runs the
work function and, the nil panic apart, ends as the work function does; a call turned
down leaves the world untouched. -/
theorem DoAll_new_counter_sums {R E P W : Type} (calls : List (Call R E P W)) (w : W)
    (hp : nilPanics NewCircuitBreaker w calls = 0) :
    (DoAll NewCircuitBreaker w calls).2.1.numRequests =
        (2 * (tally NewCircuitBreaker w calls).1 + (tally NewCircuitBreaker w calls).2)
          % 4294967296
      ∧ ((DoAll NewCircuitBreaker w calls).2.1.numFailedRequests
            + (DoAll NewCircuitBreaker w calls).2.1.numSuccessfulRequests) % 4294967296
          = (tally NewCircuitBreaker w calls).1 % 4294967296
      ∧ (tally NewCircuitBreaker w calls).1 + (tally NewCircuitBreaker w calls).2
          = calls.length
      ∧ (2 * (tally NewCircuitBreaker w calls).1 + (tally NewCircuitBreaker w calls).2
            < 4294967296 →
          (DoAll NewCircuitBreaker w calls).2.1.numRequests =
              2 * (tally NewCircuitBreaker w calls).1 + (tally NewCircuitBreaker w calls).2
            ∧ (DoAll NewCircuitBreaker w calls).2.1.numFailedRequests
                + (DoAll NewCircuitBreaker w calls).2.1.numSuccessfulRequests
              = (tally NewCircuitBreaker w calls).1
            ∧ (DoAll NewCircuitBreaker w calls).2.1.numFailedRequests
                + (DoAll NewCircuitBreaker w calls).2.1.numSuccessfulRequests
              ≤ (DoAll NewCircuitBreaker w calls).2.1.numRequests)
      ∧ (∀ (cb : CircuitBreaker) (req : Work R E P W) (w1 : W) (t1 t2 : Time),
          (letThrough E cb = true →
              (Do cb req w1 t1 t2).world = (req w1).2
                ∧ ((req w1).1.isNilPanic = false →
                    (Do cb req w1 t1 t2).outcome = (req w1).1))
            ∧ (letThrough E cb = false → (Do cb req w1 t1 t2).world = w1)) := by
  obtain ⟨f, s, hfs, hr, hf, hs, hlen⟩ := DoAll_counters calls NewCircuitBreaker w
  have z1 : NewCircuitBreaker.numRequests = 0 := rfl
  have z2 : NewCircuitBreaker.numFailedRequests = 0 := rfl
  have z3 : NewCircuitBreaker.numSuccessfulRequests = 0 := rfl
  rw [z1, iterate_incr32_zero, hp] at hr
  rw [z2, iterate_incr32_zero] at hf
  rw [z3, iterate_incr32_zero] at hs
  rw [hp] at hlen
  simp only [uint32Size, Nat.add_zero] at hr hf hs hlen
  rw [hr, hf, hs]
  generalize (tally NewCircuitBreaker w calls).1 = a at hfs hlen ⊢
  generalize (tally NewCircuitBreaker w calls).2 = r at hlen ⊢
  refine ⟨rfl, by omega, hlen, ?_, ?_⟩
  · intro hlt
    refine ⟨?_, ?_, ?_⟩ <;> omega
  · intro cb req w1 t1 t2
    constructor
    · intro hl
      have hb := (letThrough_iff E cb).mp hl
      exact ⟨(Do_accept_outcome cb req w1 t1 t2 hb).2.1,
        fun hn => ((Do_accept_outcome cb req w1 t1 t2 hb).1).trans
          (passedOn_of_not_nilPanic (req w1).1 hn)⟩
    · intro hl
      have hb : (beforeRequest E cb).err ≠ none := by
        intro h
        rw [(letThrough_iff E cb).mpr h] at hl
        exact absurd hl (by decide)
      exact (Do_reject cb req w1 t1 t2 hb).1

/-- Witness of C20, amended: a success, a panic with the value 9 and a failure on a
fresh breaker; the first two calls are let through, the third is turned down. -/
theorem DoAll_new_counter_sums_witness :
    nilPanics NewCircuitBreaker 0 [okCall, panicCall, failCall] = 0
      ∧ tally NewCircuitBreaker 0 [okCall, panicCall, failCall] = (2, 1)
      ∧ (DoAll NewCircuitBreaker 0 [okCall, panicCall, failCall]).2.1.numRequests = 5
      ∧ (DoAll NewCircuitBreaker 0 [okCall, panicCall, failCall]).2.1.numRequests =
          (2 * (tally NewCircuitBreaker 0 [okCall, panicCall, failCall]).1
            + (tally NewCircuitBreaker 0 [okCall, panicCall, failCall]).2) % 4294967296 :=
  ⟨rfl, rfl, rfl,
    (DoAll_new_counter_sums [okCall, panicCall, failCall] 0 rfl).1⟩

/-- Counterexample to C20 as stated: one call of `Do` on a fresh breaker whose work
function panics with a nil value (`panic(nil)` under the semantics of Go 1.20 and
earlier). `beforeRequest` lets the call through and the work function is run (the
world counts one call), so `a = 1` and `r = 0`; afterwards `numRequests` is 1, not
`2 * 1 + 0`, and `numFailedRequests + numSuccessfulRequests` is 0, not 1. -/
theorem DoAll_nil_panic_counts :
    letThrough Nat NewCircuitBreaker = true
      ∧ nilPanicCall.req 0 = (Outcome.panics none, 1)
      ∧ (DoAll NewCircuitBreaker 0 [nilPanicCall]).2.2 = 1
      ∧ (DoAll NewCircuitBreaker 0 [nilPanicCall]).2.1.numRequests = 1
      ∧ (DoAll NewCircuitBreaker 0 [nilPanicCall]).2.1.numFailedRequests = 0
      ∧ (DoAll NewCircuitBreaker 0 [nilPanicCall]).2.1.numSuccessfulRequests = 0
      ∧ (DoAll NewCircuitBreaker 0 [nilPanicCall]).2.1.numRequests
          ≠ (2 * 1 + 0) % 4294967296
      ∧ ((DoAll NewCircuitBreaker 0 [nilPanicCall]).2.1.numFailedRequests
            + (DoAll NewCircuitBreaker 0 [nilPanicCall]).2.1.numSuccessfulRequests)
          % 4294967296 ≠ 1 % 4294967296 := by
  have h1 : (DoAll NewCircuitBreaker 0 [nilPanicCall]).2.1.numRequests = 1 := rfl
  have h2 : (DoAll NewCircuitBreaker 0 [nilPanicCall]).2.1.numFailedRequests = 0 := rfl
  have h3 : (DoAll NewCircuitBreaker 0 [nilPanicCall]).2.1.numSuccessfulRequests = 0 := rfl
  refine ⟨rfl, rfl, rfl, h1, h2, h3, ?_, ?_⟩
  · rw [h1]; decide
  · rw [h2, h3]; decide

/-- C15, amended: `beforeRequest` and `recordRequest` call `Lock` before their first
read or write of a field of the breaker and `Unlock` after their last one, and in `Do`
the work function runs while the mutex is not held (and every field access of `Do`
lies inside one of the two). `currentState` calls neither `Lock` nor `Unlock`: run on
its own its first action is an unguarded read of `state`; its reads and writes are
covered when, and only when, its caller holds the mutex. -/
theorem mutex_discipline {R E P W : Type} (cb : CircuitBreaker) (err : Option (Error E))
    (req : Work R E P W) (w : W) (now : Time) :
    lockDiscipline false (beforeRequest.trace cb) = true
      ∧ lockDiscipline false (recordRequest.trace cb err) = true
      ∧ lockDiscipline false (Do.trace cb req w) = true
      ∧ Action.lock ∉ currentState.trace cb now
      ∧ Action.unlock ∉ currentState.trace cb now
      ∧ (currentState.trace cb now).head? = some (Action.read Field.state)
      ∧ lockDiscipline false (currentState.trace cb now) = false
      ∧ underCallersLock (currentState.trace cb now) = true := by
  refine ⟨beforeRequest_trace_discipline cb, recordRequest_trace_discipline cb err,
    ?_, ?_, ?_, rfl, rfl, ?_⟩
  · simp only [Do.trace]
    refine lockDiscipline_append _ _ false (beforeRequest_trace_discipline cb) ?_
    have hw : ∀ e : Option (Error E),
        lockDiscipline false
          ([Action.work] ++ recordRequest.trace (beforeRequest E cb).cb e) = true := by
      intro e
      have := recordRequest_trace_discipline (beforeRequest E cb).cb e
      simpa [lockDiscipline] using this
    rcases hq : req w with ⟨o, w1⟩
    cases o with
    | returns result e =>
      split
      · rfl
      · rfl
      · exact hw e
    | panics v =>
      cases v with
      | some v =>
        split
        · rfl
        · rfl
        · exact hw _
      | none =>
        split
        · rfl
        · rfl
        · rfl
  · simp only [currentState.trace, newObject.trace, setState.trace, clear.trace]
    split_ifs <;> decide
  · simp only [currentState.trace, newObject.trace, setState.trace, clear.trace]
    split_ifs <;> decide
  · simp only [currentState.trace, newObject.trace, setState.trace, clear.trace]
    split_ifs <;> rfl

/-- Counterexample to C15 as stated: `currentState` on a fresh breaker reads `state`,
`expiry` and `state` again without a call of `Lock`: it breaks the lock discipline. -/
theorem currentState_takes_no_lock :
    currentState.trace NewCircuitBreaker ⟨10⟩ =
        [Action.read Field.state, Action.read Field.expiry, Action.read Field.state]
      ∧ lockDiscipline false (currentState.trace NewCircuitBreaker ⟨10⟩) = false := by
  constructor <;> rfl

end Fatol
